import Mathlib

/-!
Verification development for the plant-pipeline repository.

Shallow embedding of the ingestion pipeline (serial_ingestor.py,
ingest/ingest.py), the storage wrapper (storage/database.py), the rollup
worker (processing/rollup_job.py), the spool rotation logic and the
simulator arithmetic (scripts/arduino_mimic.py).  Python floats are
modelled as rationals, machine integers as Int/Nat, SQLite tables as
lists of typed rows, and fallible operations as Except/Option values.
-/

namespace PlantPipe

/-! ### Generic insertion sort (used to model SQL ORDER BY and glob-sort) -/

def insertSorted {α : Type} (le : α → α → Bool) (a : α) : List α → List α
  | [] => [a]
  | b :: l => if le a b then a :: b :: l else b :: insertSorted le a l

def sortByLe {α : Type} (le : α → α → Bool) (l : List α) : List α :=
  l.foldr (insertSorted le) []

/-! ### scripts/arduino_mimic.py -/

namespace Mimic

/-- Line 92 of arduino_mimic.py:
`moisture_pct = 100.0 - (moisture_raw - 190) / (450 - 190) * 100`
(raw_dry = 450 and raw_wet = 190 are hard-coded constants). -/
def moisture_pct (moisture_raw : ℚ) : ℚ :=
  100 - (moisture_raw - 190) / (450 - 190) * 100

end Mimic

/-! ### src/plantpipe/input/serial_ingestor.py -/

namespace SerialIngestor

/-- A JSON value as produced by `json.loads`.  Python `bool` is a subtype of
`int`, so `isinstance(True, int)` holds; the type-check functions below
reproduce that. -/
inductive JVal where
  | jnull
  | jbool (b : Bool)
  | jint (n : Int)
  | jnum (q : ℚ)
  | jstr (s : String)
  | jarr
  | jobj (fields : List (String × JVal))

/-- Python `isinstance(v, int)` (accepts bool). -/
def is_int : JVal → Bool
  | .jint _ => true
  | .jbool _ => true
  | _ => false

/-- Python `isinstance(v, (int, float, type(None)))`. -/
def is_num_or_null : JVal → Bool
  | .jint _ => true
  | .jbool _ => true
  | .jnum _ => true
  | .jnull => true
  | _ => false

/-- Python `isinstance(v, (int, float))` (accepts bool, rejects None). -/
def is_num : JVal → Bool
  | .jint _ => true
  | .jbool _ => true
  | .jnum _ => true
  | _ => false

/-- Python `isinstance(v, str)`. -/
def is_str : JVal → Bool
  | .jstr _ => true
  | _ => false

/-- `EXPECTED_KEYS` from serial_ingestor.py: key name and its `isinstance`
check, in source order. -/
def EXPECTED_KEYS : List (String × (JVal → Bool)) :=
  [("plant_id", is_int),
   ("seq", is_int),
   ("lux", is_num_or_null),
   ("rh", is_num_or_null),
   ("temp", is_num_or_null),
   ("moisture_raw", is_int),
   ("moisture_pct", is_num),
   ("err", is_str)]

/-- Dict lookup on the decoded object.  `json.loads` keeps the last
occurrence of a duplicated key, hence the reversed search. -/
def lookupField (fields : List (String × JVal)) (k : String) : Option JVal :=
  (fields.reverse.find? (fun kv => kv.1 = k)).map (·.2)

/-- Core loop of `validate_payload`: walk `EXPECTED_KEYS`, fail on a missing
key or a failed `isinstance` check.  The Python `None`-in-tuple escape branch
is folded into the nullable checks above. -/
def validateKeys (fields : List (String × JVal)) :
    List (String × (JVal → Bool)) → Except String Unit
  | [] => .ok ()
  | (k, chk) :: rest =>
    match lookupField fields k with
    | none => .error ("Missing key: " ++ k)
    | some v => if chk v then validateKeys fields rest else .error ("Bad type for key " ++ k)

/-- `validate_payload(obj)` for a decoded JSON object. -/
def validate_payload (fields : List (String × JVal)) : Except String Unit :=
  validateKeys fields EXPECTED_KEYS

/-- The typed record extracted from a validated payload (the fields the
ingestor reads out of the dict). -/
structure Payload where
  plant_id : Int
  seq : Option Int
  lux : Option ℚ
  rh : Option ℚ
  temp : Option ℚ
  moisture_raw : Int
  moisture_pct : Option ℚ
  err : String
deriving DecidableEq

/-- Python `int(v)` on a JSON value that passed an `is_int`-style check. -/
def asInt : JVal → Option Int
  | .jint n => some n
  | .jbool b => some (cond b 1 0)
  | _ => none

/-- Python `float(v)` on a JSON number (bool counts as a number). -/
def asNum : JVal → Option ℚ
  | .jint n => some (n : ℚ)
  | .jnum q => some q
  | .jbool b => some (cond b 1 0)
  | _ => none

/-- Optional numeric field: `float(obj[k]) if obj.get(k) is not None else None`. -/
def optNum (fields : List (String × JVal)) (k : String) : Option ℚ :=
  match lookupField fields k with
  | some v => asNum v
  | none => none

/-- Extraction of the typed payload out of a validated object, mirroring the
subscript/`.get` accesses in `main` and `row_from_payload`. -/
def extractPayload (fields : List (String × JVal)) : Option Payload :=
  match asInt ((lookupField fields "plant_id").getD .jnull),
        asInt ((lookupField fields "moisture_raw").getD .jnull) with
  | some plant, some mraw =>
    some { plant_id := plant
           seq := (lookupField fields "seq").bind asInt
           lux := optNum fields "lux"
           rh := optNum fields "rh"
           temp := optNum fields "temp"
           moisture_raw := mraw
           moisture_pct := optNum fields "moisture_pct"
           err := match lookupField fields "err" with
                  | some (.jstr s) => s
                  | _ => ""
         }
  | _, _ => none

/-- A persisted `readings` row (tuple built by `row_from_payload`). -/
structure Row where
  ts_utc : String
  plant_id : Int
  seq : Option Int
  lux : Option ℚ
  rh : Option ℚ
  temp : Option ℚ
  moisture_raw : Int
  moisture_pct : Option ℚ
  err : String
  raw_json : String
deriving DecidableEq

/-- `row_from_payload(obj)`; the ingestion timestamp and the re-serialized
JSON text are inputs of the model. -/
def row_from_payload (now_iso raw_json : String) (obj : Payload) : Row :=
  { ts_utc := now_iso
    plant_id := obj.plant_id
    seq := obj.seq
    lux := obj.lux
    rh := obj.rh
    temp := obj.temp
    moisture_raw := obj.moisture_raw
    moisture_pct := obj.moisture_pct
    err := obj.err
    raw_json := raw_json }

/-- Whitespace characters removed by Python `str.strip()`. -/
def isSpaceCh (c : Char) : Bool :=
  c = ' ' ∨ c = '\t' ∨ c = '\n' ∨ c = '\r' ∨ c = '\x0b' ∨ c = '\x0c'

/-- Python `line.strip()`. -/
def pstrip (s : String) : String :=
  ⟨((s.toList.dropWhile isSpaceCh).reverse.dropWhile isSpaceCh).reverse⟩

/-- Result of `json.loads` on one line: an exception or a JSON value. -/
inductive ParseResult where
  | failed
  | value (v : JVal)

/-- `json.loads` followed by `validate_payload` and field extraction.  A
non-object top-level value makes `validate_payload` raise (TypeError or a
missing-key ValueError), so it is a decode failure here as well. -/
def decodeLine : ParseResult → Except String Payload
  | .failed => .error "JSONDecodeError"
  | .value (.jobj fields) =>
    match validate_payload fields with
    | .error e => .error e
    | .ok _ =>
      match extractPayload fields with
      | some p => .ok p
      | none => .error "unreachable: validated payload failed extraction"
  | .value _ => .error "payload is not a JSON object"

/-- Outcome of `upsert_reading` (the sqlite INSERT) for one line: success, an
IntegrityError from a CHECK constraint, or an IntegrityError from a UNIQUE
constraint (the latter is swallowed quietly by the loop). -/
inductive InsertResult where
  | ok
  | checkFail
  | uniqueFail
deriving DecidableEq

/-- In-memory / persisted per-plant state, keyed by plant id. -/
def getAssoc (m : List (Int × Int)) (k : Int) : Option Int :=
  (m.find? (fun kv => kv.1 = k)).map (·.2)

def setAssoc (m : List (Int × Int)) (k v : Int) : List (Int × Int) :=
  if m.any (fun kv => kv.1 = k) then
    m.map (fun kv => if kv.1 = k then (k, v) else kv)
  else
    m ++ [(k, v)]

/-- Mutable state of the ingestion loop in `main`:
the `readings` table, the `bad_rows` dead-letter table, the persisted
`ingest_state` table, the in-memory `last_seq_by_plant` dict and the
`dropped_dups` counter. -/
structure LoopState where
  readings : List Row
  bad_rows : List (String × String)
  ingest_state : List (Int × Int)
  last_seq_by_plant : List (Int × Int)
  dropped_dups : Nat
deriving DecidableEq

/-- `persist_last_seq(conn, plant_id, seq)`: upsert into `ingest_state`,
no-op when seq is None. -/
def persist_last_seq (st : List (Int × Int)) (plant : Int) (seq : Option Int) :
    List (Int × Int) :=
  match seq with
  | none => st
  | some s => setAssoc st plant s

/-- The insert phase of the loop body (lines 271-285): build the row, try the
INSERT, persist the last seq on success; on an IntegrityError record a
dead-letter row for CHECK failures and swallow UNIQUE collisions. -/
def insertPhase (now_iso : String) (ins : InsertResult) (line : String)
    (obj : Payload) (st : LoopState) : LoopState :=
  let row := row_from_payload now_iso line obj
  match ins with
  | .ok =>
    { st with readings := st.readings ++ [row]
              ingest_state := persist_last_seq st.ingest_state obj.plant_id obj.seq }
  | .checkFail =>
    { st with bad_rows := st.bad_rows ++ [(line, "CHECK_FAIL")] }
  | .uniqueFail => st

/-- One iteration of the `while True` loop in `main` for one received line
(after `.strip()`): skip blank lines, dead-letter decode failures, drop an
immediate duplicate seq, otherwise advance the in-memory last-seq dict and
run the insert phase. -/
def process_line (now_iso : String) (ins : InsertResult) (line : String)
    (parse : ParseResult) (st : LoopState) : LoopState :=
  if pstrip line = "" then st
  else
    match decodeLine parse with
    | .error e => { st with bad_rows := st.bad_rows ++ [(pstrip line, e)] }
    | .ok obj =>
      match obj.seq with
      | some s =>
        match getAssoc st.last_seq_by_plant obj.plant_id with
        | some prev =>
          if s = prev then { st with dropped_dups := st.dropped_dups + 1 }
          else
            insertPhase now_iso ins line obj
              { st with last_seq_by_plant := setAssoc st.last_seq_by_plant obj.plant_id s }
        | none =>
          insertPhase now_iso ins line obj
            { st with last_seq_by_plant := setAssoc st.last_seq_by_plant obj.plant_id s }
      | none => insertPhase now_iso ins line obj st

/-- Run the loop over a list of (line, parse outcome, insert outcome). -/
def runLoop (now_iso : String)
    (items : List (String × ParseResult × InsertResult)) (st : LoopState) : LoopState :=
  items.foldl (fun s it => process_line now_iso it.2.2 it.1 it.2.1 s) st

/-- Sequence numbers of the accepted readings of one plant, in storage order. -/
def seqsOf (p : Int) (rows : List Row) : List (Option Int) :=
  (rows.filter (fun r => r.plant_id = p)).map (·.seq)

/-- Key `k` is present and its value passes the check `chk`. -/
def checkKey (fields : List (String × JVal)) (k : String) (chk : JVal → Bool) : Bool :=
  match lookupField fields k with
  | some v => chk v
  | none => false

/-- Strict JSON "int" (no Python bool subtyping), for the claim-side format. -/
def spec_int : JVal → Bool
  | .jint _ => true
  | _ => false

/-- Claim-side "number or null". -/
def spec_num_or_null : JVal → Bool
  | .jint _ => true
  | .jnum _ => true
  | .jnull => true
  | _ => false

/-- Claim-side "string or null". -/
def spec_str_or_null : JVal → Bool
  | .jstr _ => true
  | .jnull => true
  | _ => false

/-- Claim-side wire format, following the specification words: probe id and
seq and moisture_raw are ints, lux and rh and temp are number-or-null,
moisture_pct is number-or-null, err is string-or-null, unknown extra fields
ignored.  (The spec renames the code's `plant_id` key to `probe_id`; the
model keeps the code's key names.) -/
def claim_wire_ok (fields : List (String × JVal)) : Bool :=
  checkKey fields "plant_id" spec_int &&
  checkKey fields "seq" spec_int &&
  checkKey fields "lux" spec_num_or_null &&
  checkKey fields "rh" spec_num_or_null &&
  checkKey fields "temp" spec_num_or_null &&
  checkKey fields "moisture_raw" spec_int &&
  checkKey fields "moisture_pct" spec_num_or_null &&
  checkKey fields "err" spec_str_or_null

/-- The wire format the decoder actually accepts (amended claim): the int
fields also admit Python bools, `moisture_pct` must be a non-null number and
`err` a non-null string. -/
def amended_wire_ok (fields : List (String × JVal)) : Bool :=
  checkKey fields "plant_id" is_int &&
  checkKey fields "seq" is_int &&
  checkKey fields "lux" is_num_or_null &&
  checkKey fields "rh" is_num_or_null &&
  checkKey fields "temp" is_num_or_null &&
  checkKey fields "moisture_raw" is_int &&
  checkKey fields "moisture_pct" is_num &&
  checkKey fields "err" is_str

/-- Loop invariant for the dedup filter: per plant, consecutively accepted
readings carry distinct sequence numbers, and the in-memory dict holds the
seq of the last accepted reading of the plant. -/
def SeqInv (st : LoopState) : Prop :=
  ∀ p : Int,
    List.Chain' (· ≠ ·) (seqsOf p st.readings) ∧
    ∀ t : Int, (seqsOf p st.readings).getLast? = some (some t) →
      getAssoc st.last_seq_by_plant p = some t

end SerialIngestor

/-! ### ingest/ingest.py (the alternative serial ingestor variant) -/

namespace Ingest

/-- The decoded JSON payload as read by ingest.py (fields it subscripts).
Numeric fields are `Option ℚ` (JSON number or null). -/
structure IRow where
  seq : Option Int
  lux : Option ℚ
  rh : Option ℚ
  temp : Option ℚ
  moisture_raw : Option ℚ
  moisture_pct : Option ℚ
  err : Option String
deriving DecidableEq

/-- Lines 49-53 of ingest.py: for each present numeric value, replace it by
None when it falls outside the hard-coded plausibility bounds
(rh outside [0,100], temp outside [-20,70], lux below 0); moisture_raw and
moisture_pct have no bound. -/
def applyBounds (d : IRow) : IRow :=
  { d with
    rh := match d.rh with
          | some x => if 0 ≤ x ∧ x ≤ 100 then some x else none
          | none => none
    temp := match d.temp with
            | some x => if -20 ≤ x ∧ x ≤ 70 then some x else none
            | none => none
    lux := match d.lux with
           | some x => if x < 0 then none else some x
           | none => none }

/-- Python truthiness of the `err` field (`if row["err"]:`). -/
def truthyErr : Option String → Bool
  | none => false
  | some s => s ≠ ""

/-- `quality(row)`: "bad" when err is truthy or any sensor value
(lux, rh, temp, moisture_raw, moisture_pct) is None, else "ok". -/
def quality (d : IRow) : String :=
  if truthyErr d.err then "bad"
  else if d.lux = none ∨ d.rh = none ∨ d.temp = none ∨
          d.moisture_raw = none ∨ d.moisture_pct = none then "bad"
  else "ok"

/-- A row of the `reading` table written by `insert_row`. -/
structure ReadingRow where
  plant_id : Int
  received_ts_utc : String
  seq : Option Int
  lux : Option ℚ
  rh : Option ℚ
  temp : Option ℚ
  moisture_raw : Option ℚ
  moisture_pct : Option ℚ
  quality : String
  err : String
deriving DecidableEq

/-- `insert_row(conn, row)`: append one reading with the configured plant id,
the ingestion timestamp, the derived quality flag and `row["err"] or ""`. -/
def insert_row (cfg_plant_id : Int) (now : String) (d : IRow)
    (table : List ReadingRow) : List ReadingRow :=
  table ++ [{ plant_id := cfg_plant_id
              received_ts_utc := now
              seq := d.seq
              lux := d.lux
              rh := d.rh
              temp := d.temp
              moisture_raw := d.moisture_raw
              moisture_pct := d.moisture_pct
              quality := quality d
              err := d.err.getD "" }]

/-- The body of the ingest loop for one successfully parsed JSON line:
bound-nulling followed by `insert_row`. -/
def processData (cfg_plant_id : Int) (now : String) (d : IRow)
    (table : List ReadingRow) : List ReadingRow :=
  insert_row cfg_plant_id now (applyBounds d) table

end Ingest

/-! ### src/plantpipe/storage/database.py (PlantDBWrapper) -/

namespace Store

/-- A loosely typed payload value (`Dict[str, Any]` entry). -/
inductive Value where
  | vnull
  | vbool (b : Bool)
  | vint (n : Int)
  | vnum (q : ℚ)
  | vstr (s : String)
deriving DecidableEq

/-- `payload.get(k)` over a python dict (missing key gives None). -/
def pget (payload : List (String × Value)) (k : String) : Value :=
  ((payload.reverse.find? (fun kv => kv.1 = k)).map (·.2)).getD .vnull

def digitVal (c : Char) : Nat := c.toNat - 48

def isDigitCh (c : Char) : Bool := decide ('0' ≤ c) && decide (c ≤ '9')

def digitsToNat (cs : List Char) : Nat :=
  cs.foldl (fun a c => a * 10 + digitVal c) 0

/-- ASCII whitespace run stripped by Python numeric constructors
(`int(s)`, `float(s)`) before parsing. -/
def stripWs (cs : List Char) : List Char :=
  ((cs.dropWhile SerialIngestor.isSpaceCh).reverse.dropWhile
    SerialIngestor.isSpaceCh).reverse

/-- Continuation of a digit run inside a Python numeric literal: digits
with single underscores allowed only between digits (PEP 515); returns the
digit characters with the underscores removed. -/
def digitsUSAux : List Char → Option (List Char)
  | [] => some []
  | '_' :: c :: rest =>
    if isDigitCh c then (digitsUSAux rest).map (fun ds => c :: ds) else none
  | c :: rest =>
    if isDigitCh c then (digitsUSAux rest).map (fun ds => c :: ds) else none

/-- A non-empty digit run with underscores between digits, as accepted in
Python numeric literals (`int("1_0") = 10`, `int("1__0")` fails). -/
def digitsUS : List Char → Option (List Char)
  | c :: rest =>
    if isDigitCh c then (digitsUSAux rest).map (fun ds => c :: ds) else none
  | [] => none

/-- Python `int(s)`: strip surrounding whitespace, optional sign, then
decimal digits with optional single underscores between digits. -/
def parsePyInt (s : String) : Option Int :=
  match stripWs s.toList with
  | '+' :: r => (digitsUS r).map (fun ds => (digitsToNat ds : Int))
  | '-' :: r => (digitsUS r).map (fun ds => -(digitsToNat ds : Int))
  | r => (digitsUS r).map (fun ds => (digitsToNat ds : Int))

/-- A value produced by Python `float(...)`: a finite value (modelled as
an exact rational per this file's convention for floats, so no binary
rounding or overflow-to-inf) or one of the special values produced from
the inf/infinity/nan string literals. -/
inductive PyFloat where
  | finite (q : ℚ)
  | pinf
  | ninf
  | nan
deriving DecidableEq

/-- The possibly empty integer or fraction digit group of a float literal
(underscores between digits allowed). -/
def digitGroup : List Char → Option (List Char)
  | [] => some []
  | cs => digitsUS cs

/-- Mantissa of a float literal: `digits`, `digits.`, `.digits` or
`digits.digits`, with at least one digit overall. -/
def parseMantissa (cs : List Char) : Option ℚ :=
  match cs.span (fun c => c ≠ '.') with
  | (ip, []) => (digitsUS ip).map (fun ds => (digitsToNat ds : ℚ))
  | (ip, _ :: fp) => do
    let ipd ← digitGroup ip
    let fpd ← digitGroup fp
    if ipd.isEmpty ∧ fpd.isEmpty then none
    else
      some ((digitsToNat ipd : ℚ) + (digitsToNat fpd : ℚ) / (10 ^ fpd.length : ℚ))

/-- Exponent of a float literal: optional sign then a digit run. -/
def parseExp (cs : List Char) : Option Int :=
  match cs with
  | '+' :: r => (digitsUS r).map (fun ds => (digitsToNat ds : Int))
  | '-' :: r => (digitsUS r).map (fun ds => -(digitsToNat ds : Int))
  | r => (digitsUS r).map (fun ds => (digitsToNat ds : Int))

/-- Decimal float literal: mantissa with an optional e/E exponent. -/
def parseDecimal (cs : List Char) : Option ℚ :=
  match cs.span (fun c => c ≠ 'e' ∧ c ≠ 'E') with
  | (mant, []) => parseMantissa mant
  | (mant, _ :: ex) => do
    let m ← parseMantissa mant
    let e ← parseExp ex
    some (m * (10 : ℚ) ^ e)

/-- Python `float(s)`: strip surrounding whitespace, optional sign, then
either a case-insensitive inf/infinity/nan literal or a decimal literal
with optional fraction and exponent. -/
def parsePyFloat (s : String) : Option PyFloat :=
  let cs := stripWs s.toList
  let sb : Bool × List Char :=
    match cs with
    | '+' :: r => (false, r)
    | '-' :: r => (true, r)
    | r => (false, r)
  let neg := sb.1
  let body := sb.2
  let lower := body.map Char.toLower
  if lower = "inf".toList ∨ lower = "infinity".toList then
    some (if neg then .ninf else .pinf)
  else if lower = "nan".toList then some .nan
  else (parseDecimal body).map (fun q => .finite (if neg then -q else q))

/-- Python `int(q)` on a float: truncation toward zero. -/
def truncQ (q : ℚ) : Int :=
  if 0 ≤ q then ⌊q⌋ else ⌈q⌉

/-- `__opt_int`: None passes through; otherwise `int(v)` or a ValueError. -/
def opt_int : Value → Except String (Option Int)
  | .vnull => .ok none
  | .vint n => .ok (some n)
  | .vbool b => .ok (some (cond b 1 0))
  | .vnum q => .ok (some (truncQ q))
  | .vstr s =>
    match parsePyInt s with
    | some n => .ok (some n)
    | none => .error "Expected int"

/-- `__opt_float`: None passes through; otherwise `float(v)` or a ValueError. -/
def opt_float : Value → Except String (Option PyFloat)
  | .vnull => .ok none
  | .vint n => .ok (some (.finite (n : ℚ)))
  | .vbool b => .ok (some (.finite (cond b 1 0)))
  | .vnum q => .ok (some (.finite q))
  | .vstr s =>
    match parsePyFloat s with
    | some f => .ok (some f)
    | none => .error "Expected float"

/-- Gregorian leap year. -/
def isLeap (y : Nat) : Bool :=
  (y % 4 = 0 ∧ y % 100 ≠ 0) ∨ y % 400 = 0

/-- Days in a month as validated by the `datetime` constructor
("day is out of range for month"). -/
def daysInMonth (y m : Nat) : Nat :=
  if m = 2 then (if isLeap y then 29 else 28)
  else if m = 4 ∨ m = 6 ∨ m = 9 ∨ m = 11 then 30
  else 31

/-- Consume a maximal run of one or two decimal digits: the `strptime`
patterns for month, day, hour, minute and second all accept one or two
digits (zero padding optional) followed by a non-digit, and a longer digit
run can never match because the next format token is a non-digit literal. -/
def takeField12 (cs : List Char) : Option (Nat × List Char) :=
  match cs.span isDigitCh with
  | (ds, rest) =>
    if 1 ≤ ds.length ∧ ds.length ≤ 2 then some (digitsToNat ds, rest) else none

/-- Consume exactly four digits: the `%Y` pattern. -/
def takeYear (cs : List Char) : Option (Nat × List Char) :=
  match cs.span isDigitCh with
  | (ds, rest) => if ds.length = 4 then some (digitsToNat ds, rest) else none

/-- Consume one expected literal character of the format string. -/
def expectCh (c : Char) : List Char → Option (List Char)
  | x :: rest => if x = c then some rest else none
  | [] => none

/-- Whitespace in a `strptime` format string matches a run of one or more
whitespace characters in the data. -/
def skipWs1 (cs : List Char) : Option (List Char) :=
  match cs.span SerialIngestor.isSpaceCh with
  | (ws, rest) => if ws.length = 0 then none else some rest

/-- The field structure of `datetime.strptime(s, "%Y-%m-%d %H:%M:%S")`:
four-digit year, one- or two-digit month, day, hour, minute and second,
a whitespace run between date and time, and the whole string consumed. -/
def strptimeFields (cs : List Char) : Option (Nat × Nat × Nat × Nat × Nat × Nat) := do
  let (y, r1) ← takeYear cs
  let r2 ← expectCh '-' r1
  let (mo, r3) ← takeField12 r2
  let r4 ← expectCh '-' r3
  let (d, r5) ← takeField12 r4
  let r6 ← skipWs1 r5
  let (h, r7) ← takeField12 r6
  let r8 ← expectCh ':' r7
  let (mi, r9) ← takeField12 r8
  let r10 ← expectCh ':' r9
  let (se, r11) ← takeField12 r10
  if r11 = [] then some (y, mo, d, h, mi, se) else none

/-- `datetime.strptime(s, "%Y-%m-%d %H:%M:%S")` succeeds: the format
matches and every field is in the datetime constructor's range.  The `%S`
pattern alone admits 60 and 61, but the datetime constructor then raises
"second must be in 0..59", so valid seconds stop at 59; likewise year 0
matches `%Y` but is below MINYEAR, and the month/day patterns exclude the
values the range checks exclude. -/
def valid_ts_chars (cs : List Char) : Bool :=
  match strptimeFields cs with
  | none => false
  | some (y, mo, d, h, mi, se) =>
    decide (1 ≤ y ∧ 1 ≤ mo ∧ mo ≤ 12 ∧ 1 ≤ d ∧ d ≤ daysInMonth y mo ∧
            h ≤ 23 ∧ mi ≤ 59 ∧ se ≤ 59)

def is_valid_iso_ts : Value → Bool
  | .vstr s => valid_ts_chars s.toList
  | _ => false

/-- A row built by `__build_row` for the `readings` table. -/
structure RowR where
  ts : String
  probe_id : Option Int
  lux : Option PyFloat
  rh : Option PyFloat
  temp_c : Option PyFloat
  moisture_raw : Option Int
  seq : Option Int
  calibration_id : Option Int
deriving DecidableEq

/-- `__build_row(payload)`: validate the timestamp, coerce each optional
field, and require at least one measurement. -/
def build_row (payload : List (String × Value)) : Except String RowR := do
  let tsv := pget payload "ts"
  if is_valid_iso_ts tsv then
    let ts := match tsv with | .vstr s => s | _ => ""
    let probe_id ← opt_int (pget payload "probe_id")
    let lux ← opt_float (pget payload "lux")
    let rh ← opt_float (pget payload "rh")
    let temp_c ← opt_float (pget payload "temp_c")
    let moisture_raw ← opt_int (pget payload "moisture_raw")
    let seq ← opt_int (pget payload "seq")
    let calibration_id ← opt_int (pget payload "calibration_id")
    if lux = none ∧ rh = none ∧ temp_c = none ∧ moisture_raw = none then
      .error "At least one measurement must be present."
    else
      .ok { ts, probe_id, lux, rh, temp_c, moisture_raw, seq, calibration_id }
  else
    .error "Invalid timestamp format"

/-- The readings table for the insert path, plus the `table_exists` guard. -/
structure DB where
  hasReadings : Bool
  rows : List RowR
deriving DecidableEq

/-- `[self.__build_row(p) for p in payloads]`: build every row, aborting on
the first failing one. -/
def build_rows : List (List (String × Value)) → Except String (List RowR)
  | [] => .ok []
  | p :: ps =>
    match build_row p with
    | .error e => .error e
    | .ok r =>
      match build_rows ps with
      | .error e => .error e
      | .ok rs => .ok (r :: rs)

/-- `insert_batch_readings(payloads)`: build every row first (any failure
aborts before writing), then run all inserts in one BEGIN/COMMIT; a failure
of any insert (modelled by the oracle `insFail`) rolls the whole batch back.
Returns the success flag and the resulting store. -/
def insert_batch_readings (insFail : RowR → Bool) (db : DB)
    (payloads : List (List (String × Value))) : Bool × DB :=
  if ¬ db.hasReadings then (false, db)
  else
    match build_rows payloads with
    | .error _ => (false, db)
    | .ok rows =>
      if rows = [] then (true, db)
      else if rows.any insFail then (false, db)
      else (true, { db with rows := db.rows ++ rows })

/-! #### Calibrations -/

/-- A `probe_calibrations` row. -/
structure CalRow where
  id : Nat
  probe_id : Int
  raw_dry : Int
  raw_wet : Int
  lux_min : ℚ
  lux_max : ℚ
  rh_min : ℚ
  rh_max : ℚ
  temp_min : ℚ
  temp_max : ℚ
  notes : Option String
  active : Bool
deriving DecidableEq

/-- Calibration defaults handed to `upsert_active_calibration_from_defaults`. -/
structure CalDefaults where
  raw_dry : Int
  raw_wet : Int
  lux_min : ℚ
  lux_max : ℚ
  rh_min : ℚ
  rh_max : ℚ
  temp_min : ℚ
  temp_max : ℚ
  notes : Option String
deriving DecidableEq

/-- The calibration-related store state: the `probes` and
`probe_calibrations` tables and the AUTOINCREMENT counter.  The model
assumes the schema has been initialized (the `table_exists` guards hold). -/
structure CState where
  probes : List Int
  calibs : List CalRow
  next_id : Nat
deriving DecidableEq

/-- `get_active_calibration_id`: id of the first row with this probe id and
active=1. -/
def get_active_calibration_id (s : CState) (p : Int) : Option Nat :=
  (s.calibs.find? (fun r => r.probe_id = p ∧ r.active)).map (·.id)

/-- `ensure_probe_exists`: INSERT OR IGNORE into `probes`. -/
def ensure_probe_exists (s : CState) (p : Int) : CState :=
  if p ∈ s.probes then s else { s with probes := s.probes ++ [p] }

/-- `set_active_calibration`: one transaction that ensures the probe row,
deactivates every active calibration of the probe, inserts the new row as
active and returns its id (the post-insert visibility re-check always
succeeds in a sequential execution). -/
def set_active_calibration (s : CState) (p : Int) (d : CalDefaults) :
    Option Nat × CState :=
  let s1 := ensure_probe_exists s p
  let deact := s1.calibs.map
    (fun r => if r.probe_id = p ∧ r.active then { r with active := false } else r)
  let cid := s1.next_id
  let row : CalRow :=
    { id := cid, probe_id := p, raw_dry := d.raw_dry, raw_wet := d.raw_wet,
      lux_min := d.lux_min, lux_max := d.lux_max, rh_min := d.rh_min,
      rh_max := d.rh_max, temp_min := d.temp_min, temp_max := d.temp_max,
      notes := d.notes, active := true }
  (some cid, { s1 with calibs := deact ++ [row], next_id := cid + 1 })

/-- `upsert_active_calibration_from_defaults`: return the existing active id
if one exists, otherwise create one.  The existence check happens before
the write transaction, not inside it. -/
def upsert_active_calibration_from_defaults (s : CState) (p : Int)
    (d : CalDefaults) : Option Nat × CState :=
  match get_active_calibration_id s p with
  | some cid => (some cid, s)
  | none => set_active_calibration s p d

/-! #### get_last_readings -/

/-- A stored `readings` row as selected by `get_last_readings`; `ts` is the
timestamp rendered as a sortable key (string order on the fixed ISO format
is chronological) and `id` the AUTOINCREMENT rowid. -/
structure StoredReading where
  id : Nat
  ts : Nat
  probe_id : Option Int
  lux : Option ℚ
  rh : Option ℚ
  temp_c : Option ℚ
  moisture_raw : Option Int
  moisture_pct : Option ℚ
  seq : Option Int
deriving DecidableEq

/-- The `ORDER BY ts, id` sort key. -/
def skey (r : StoredReading) : Nat × Nat := (r.ts, r.id)

/-- Lexicographic `≤` on the sort key (ascending order). -/
def leAsc (a b : StoredReading) : Bool :=
  decide (a.ts < b.ts ∨ (a.ts = b.ts ∧ a.id ≤ b.id))

/-- `ORDER BY ts DESC, id DESC`. -/
def leDesc (a b : StoredReading) : Bool := leAsc b a

/-- `get_last_readings(n, oldest_first)`: select the n most recent rows
(`ORDER BY ts DESC, id DESC LIMIT n`); with `oldest_first` re-sort that
window ascending. -/
def get_last_readings (hasTable : Bool) (rows : List StoredReading) (n : Nat)
    (oldest_first : Bool) : List StoredReading :=
  if ¬ hasTable then []
  else
    let newestFirst := (sortByLe leDesc rows).take n
    if oldest_first then sortByLe leAsc newestFirst else newestFirst

end Store

/-! ### Spool rotation (serial_ingestor.py, rotate_spool_if_needed) -/

namespace Spool

def SPOOL_ROTATE_BYTES : Nat := 200 * 1024 * 1024

def SPOOL_KEEP_FILES : Nat := 5

/-- A retired spool segment file. -/
structure Segment where
  name : String
  mtime : Nat
deriving DecidableEq

/-- The spool-related file-system state: size of the active segment, the
persisted byte-offset marker, and the retired segment files. -/
structure SpoolFS where
  active_size : Nat
  offset : Nat
  rotated : List Segment
deriving DecidableEq

/-- `list_rotations`: the retired segments sorted by mtime, newest first. -/
def list_rotations (rotated : List Segment) : List Segment :=
  sortByLe (fun a b => decide (b.mtime ≤ a.mtime)) rotated

/-- `rotate_spool_if_needed`: below the size threshold nothing happens;
otherwise the active segment is closed and renamed to
`base.<ts>.ndjson` (its mtime is its last write time `mt`), retired
segments beyond the newest `SPOOL_KEEP_FILES` are unlinked, and a fresh
empty segment is opened with its offset marker saved (position 0). -/
def rotate_spool_if_needed (base ts : String) (mt : Nat) (fs : SpoolFS) : SpoolFS :=
  if fs.active_size < SPOOL_ROTATE_BYTES then fs
  else
    let newSeg : Segment := { name := base ++ "." ++ ts ++ ".ndjson", mtime := mt }
    let rotations := list_rotations (newSeg :: fs.rotated)
    { active_size := 0
      offset := 0
      rotated := rotations.take SPOOL_KEEP_FILES }

end Spool

/-! ### src/plantpipe/processing/rollup_job.py -/

namespace Rollup

/-- A `readings` row as read by the rollup query.  `ts` is the row's
`ts_utc` in epoch seconds: for the well-formed UTC ISO strings the
ingestor writes, string comparison and the substring 5-minute floor agree
with arithmetic on epoch seconds. -/
structure RRead where
  plant_id : Int
  ts : Nat
  lux : Option ℚ
  rh : Option ℚ
  temp : Option ℚ
  moisture_pct : Option ℚ
  moisture_raw : Option ℚ
  err : Option String
deriving DecidableEq

/-- `floor_to_5m` / the `bucket_expr` string math: floor to a 5-minute
boundary. -/
def floor5 (t : Nat) : Nat := t - t % 300

/-- SQL `AVG` over a column (NULLs ignored; empty gives NULL). -/
def aggAvg (l : List ℚ) : Option ℚ :=
  match l with
  | [] => none
  | _ => some (l.sum / (l.length : ℚ))

/-- SQL `MIN` over a column (NULLs ignored; empty gives NULL). -/
def aggMin (l : List ℚ) : Option ℚ :=
  match l with
  | [] => none
  | x :: xs => some (xs.foldl min x)

/-- SQL `MAX` over a column (NULLs ignored; empty gives NULL). -/
def aggMax (l : List ℚ) : Option ℚ :=
  match l with
  | [] => none
  | x :: xs => some (xs.foldl max x)

/-- A `readings_5m` aggregate row (the non-key columns). -/
structure Agg where
  row_count : Nat
  lux_avg : Option ℚ
  lux_min : Option ℚ
  lux_max : Option ℚ
  rh_avg : Option ℚ
  rh_min : Option ℚ
  rh_max : Option ℚ
  temp_avg : Option ℚ
  temp_min : Option ℚ
  temp_max : Option ℚ
  moisture_pct_avg : Option ℚ
  moisture_pct_min : Option ℚ
  moisture_pct_max : Option ℚ
  moisture_raw_avg : Option ℚ
  moisture_raw_min : Option ℚ
  moisture_raw_max : Option ℚ
  err_count : Nat
  updated_at : Nat
deriving DecidableEq

/-- Bucket key: (plant_id, bucket_start_utc). -/
abbrev BKey := Int × Nat

/-- The `readings_5m` table: rows keyed by (plant_id, bucket_start_utc). -/
abbrev Table := List (BKey × Agg)

/-- The `WHERE ts_utc >= lower AND ts_utc < cutoff` window filter. -/
def inWindow (lower cutoff : Nat) (r : RRead) : Bool :=
  decide (lower ≤ r.ts ∧ r.ts < cutoff)

def bkeyOf (r : RRead) : BKey := (r.plant_id, floor5 r.ts)

/-- Rows of one (plant, bucket) group inside the window. -/
def groupRows (lower cutoff : Nat) (rows : List RRead) (k : BKey) : List RRead :=
  rows.filter (fun r => inWindow lower cutoff r ∧ bkeyOf r = k)

/-- The GROUP BY keys: every (plant, bucket) pair with at least one reading
in the window. -/
def groupKeys (lower cutoff : Nat) (rows : List RRead) : List BKey :=
  ((rows.filter (inWindow lower cutoff)).map bkeyOf).dedup

def colVals (f : RRead → Option ℚ) (rs : List RRead) : List ℚ := rs.filterMap f

/-- The SELECT aggregate list of the rollup query for one group. -/
def aggFor (now : Nat) (rs : List RRead) : Agg :=
  { row_count := rs.length
    lux_avg := aggAvg (colVals (·.lux) rs)
    lux_min := aggMin (colVals (·.lux) rs)
    lux_max := aggMax (colVals (·.lux) rs)
    rh_avg := aggAvg (colVals (·.rh) rs)
    rh_min := aggMin (colVals (·.rh) rs)
    rh_max := aggMax (colVals (·.rh) rs)
    temp_avg := aggAvg (colVals (·.temp) rs)
    temp_min := aggMin (colVals (·.temp) rs)
    temp_max := aggMax (colVals (·.temp) rs)
    moisture_pct_avg := aggAvg (colVals (·.moisture_pct) rs)
    moisture_pct_min := aggMin (colVals (·.moisture_pct) rs)
    moisture_pct_max := aggMax (colVals (·.moisture_pct) rs)
    moisture_raw_avg := aggAvg (colVals (·.moisture_raw) rs)
    moisture_raw_min := aggMin (colVals (·.moisture_raw) rs)
    moisture_raw_max := aggMax (colVals (·.moisture_raw) rs)
    err_count := (rs.filter (fun r => r.err ≠ none ∧ r.err ≠ some "")).length
    updated_at := now }

/-- `INSERT ... ON CONFLICT(plant_id, bucket_start_utc) DO UPDATE` for one
computed bucket: overwrite the row with the same key, or append a new row. -/
def upsertBucket (kv : BKey × Agg) (t : Table) : Table :=
  if t.any (fun kv0 => kv0.1 = kv.1) then
    t.map (fun kv0 => if kv0.1 = kv.1 then kv else kv0)
  else
    t ++ [kv]

def upsertAll (aggs : List (BKey × Agg)) (t : Table) : Table :=
  aggs.foldl (fun acc kv => upsertBucket kv acc) t

/-- The computed aggregates of one run, one per group key. -/
def computedAggs (now lower cutoff : Nat) (rows : List RRead) : List (BKey × Agg) :=
  (groupKeys lower cutoff rows).map
    (fun k => (k, aggFor now (groupRows lower cutoff rows k)))

/-- `run_once(conn, backfill_minutes)` restricted to its effect on the
`readings_5m` table.  `now` is the wall clock in epoch seconds; the window
upper bound is the start of the currently open bucket and the lower bound
lies `backfill_minutes` before it. -/
def run_once (now backfill_minutes : Nat) (rows : List RRead) (t : Table) : Table :=
  let cutoff := floor5 now
  let lower := cutoff - backfill_minutes * 60
  upsertAll (computedAggs now lower cutoff rows) t

end Rollup

end PlantPipe

/-! ## Theorems -/

namespace PlantPipe

/-! ### C4: moisture percentage -/

/-- C4 counterexample: with the calibration constants raw_dry=450 and
raw_wet=190 of the code, an incoming moisture_raw of 320 yields a computed
moisture_pct of exactly 50, not approximately 41.86: the scenario value of
the claim is off by more than any rounding tolerance. -/
theorem C4_counterexample :
    Mimic.moisture_pct 320 = 50 ∧ 41.86 + 1 < Mimic.moisture_pct 320 := by
  constructor
  · norm_num [Mimic.moisture_pct]
  · norm_num [Mimic.moisture_pct]

/-- C4 amended: the simulator computes
`moisture_pct = 100 − (moisture_raw − 190) / (450 − 190) × 100` with the
fixed constants raw_dry=450 and raw_wet=190, so raw_wet maps to 100 and
raw_dry to 0 and moisture_raw=320 gives exactly 50; the value is not
clamped to [0,100] (a raw value of 500 gives a negative percentage) and the
ingestor persists the payload's incoming moisture_pct unchanged instead of
recomputing it. -/
theorem C4_amended :
    Mimic.moisture_pct 320 = 50 ∧
    Mimic.moisture_pct 190 = 100 ∧
    Mimic.moisture_pct 450 = 0 ∧
    Mimic.moisture_pct 500 < 0 ∧
    (∀ (now_iso raw_json : String) (p : SerialIngestor.Payload),
      (SerialIngestor.row_from_payload now_iso raw_json p).moisture_pct = p.moisture_pct) := by
  refine ⟨?_, ?_, ?_, ?_, fun _ _ _ => rfl⟩ <;> norm_num [Mimic.moisture_pct]

/-! ### C2: out-of-bounds values in ingest.py -/

/-- C2 counterexample: an incoming reading with rh=150 is not rejected by
ingest.py; it is inserted as one Reading row with the rh value nulled out
and quality "bad", and no dead-letter row exists on this path (the table
grows from zero rows to one). -/
theorem C2_counterexample :
    Ingest.processData 1 "2024-01-01 00:00:00"
      { seq := some 1, lux := some 100, rh := some 150, temp := some 20,
        moisture_raw := some 320, moisture_pct := some 50, err := none } [] =
    [{ plant_id := 1, received_ts_utc := "2024-01-01 00:00:00", seq := some 1,
       lux := some 100, rh := none, temp := some 20, moisture_raw := some 320,
       moisture_pct := some 50, quality := "bad", err := "" }] := by
  decide

/-- C2 amended: an incoming rh outside the hard-coded bounds [0,100] (the
bounds are fixed in ingest.py, not read from the probe's calibration) is
replaced by null and the reading is still inserted, exactly one row is
appended, it carries quality "bad", and the out-of-bounds value itself is
neither persisted nor clamped (the stored rh is null). -/
theorem C2_amended (cfg_plant : Int) (now : String)
    (table : List Ingest.ReadingRow) (d : Ingest.IRow) (x : ℚ)
    (hrh : d.rh = some x) (hout : x < 0 ∨ 100 < x) :
    ∃ r, Ingest.processData cfg_plant now d table = table ++ [r] ∧
      r.rh = none ∧ r.quality = "bad" := by
  have hb : (Ingest.applyBounds d).rh = none := by
    simp only [Ingest.applyBounds, hrh]
    rcases hout with h | h
    · rw [if_neg]; push_neg; intro h0; linarith
    · rw [if_neg]; push_neg; intro h0; linarith
  refine ⟨_, rfl, ?_, ?_⟩
  · simpa [Ingest.insert_row] using hb
  · simp only [Ingest.insert_row, Ingest.quality, hb]
    by_cases he : Ingest.truthyErr (Ingest.applyBounds d).err = true <;> simp [he]

/-- C2 witness: the amended theorem applied to the rh=150 scenario. -/
theorem C2_witness :
    ∃ r, Ingest.processData 1 "2024-01-01 00:00:00"
      { seq := some 1, lux := some 100, rh := some 150, temp := some 20,
        moisture_raw := some 320, moisture_pct := some 50, err := none } [] = [] ++ [r] ∧
      r.rh = none ∧ r.quality = "bad" :=
  C2_amended 1 "2024-01-01 00:00:00" []
    { seq := some 1, lux := some 100, rh := some 150, temp := some 20,
      moisture_raw := some 320, moisture_pct := some 50, err := none }
    150 rfl (Or.inr (by norm_num))

/-! ### C5: storage failure versus dedup state -/

/-- C5: the claim is right and the code is wrong.  The loop advances the
in-memory `last_seq_by_plant` dict before attempting the INSERT and keeps
the advanced value when the insert raises an IntegrityError, so a replay of
the same spooled line (seq 7 of plant 1) is then dropped as a duplicate:
after the failed insert no Reading row and no persisted `ingest_state` row
exist, yet the dict says last_seq=7, and the replay leaves the readings
table empty while incrementing the duplicate counter. -/
theorem C5_failed_insert_then_replay_dropped :
    (SerialIngestor.process_line "2024-01-01T00:00:00+00:00" .checkFail "l7"
      (.value (.jobj [("plant_id", .jint 1), ("seq", .jint 7), ("lux", .jnull),
        ("rh", .jnull), ("temp", .jnull), ("moisture_raw", .jint 320),
        ("moisture_pct", .jnum 50), ("err", .jstr "")]))
      { readings := [], bad_rows := [], ingest_state := [],
        last_seq_by_plant := [], dropped_dups := 0 }).readings = [] ∧
    (SerialIngestor.process_line "2024-01-01T00:00:00+00:00" .checkFail "l7"
      (.value (.jobj [("plant_id", .jint 1), ("seq", .jint 7), ("lux", .jnull),
        ("rh", .jnull), ("temp", .jnull), ("moisture_raw", .jint 320),
        ("moisture_pct", .jnum 50), ("err", .jstr "")]))
      { readings := [], bad_rows := [], ingest_state := [],
        last_seq_by_plant := [], dropped_dups := 0 }).ingest_state = [] ∧
    (SerialIngestor.process_line "2024-01-01T00:00:00+00:00" .checkFail "l7"
      (.value (.jobj [("plant_id", .jint 1), ("seq", .jint 7), ("lux", .jnull),
        ("rh", .jnull), ("temp", .jnull), ("moisture_raw", .jint 320),
        ("moisture_pct", .jnum 50), ("err", .jstr "")]))
      { readings := [], bad_rows := [], ingest_state := [],
        last_seq_by_plant := [], dropped_dups := 0 }).last_seq_by_plant = [(1, 7)] ∧
    (SerialIngestor.process_line "2024-01-01T00:00:00+00:00" .ok "l7"
      (.value (.jobj [("plant_id", .jint 1), ("seq", .jint 7), ("lux", .jnull),
        ("rh", .jnull), ("temp", .jnull), ("moisture_raw", .jint 320),
        ("moisture_pct", .jnum 50), ("err", .jstr "")]))
      (SerialIngestor.process_line "2024-01-01T00:00:00+00:00" .checkFail "l7"
        (.value (.jobj [("plant_id", .jint 1), ("seq", .jint 7), ("lux", .jnull),
          ("rh", .jnull), ("temp", .jnull), ("moisture_raw", .jint 320),
          ("moisture_pct", .jnum 50), ("err", .jstr "")]))
        { readings := [], bad_rows := [], ingest_state := [],
          last_seq_by_plant := [], dropped_dups := 0 })).readings = [] ∧
    (SerialIngestor.process_line "2024-01-01T00:00:00+00:00" .ok "l7"
      (.value (.jobj [("plant_id", .jint 1), ("seq", .jint 7), ("lux", .jnull),
        ("rh", .jnull), ("temp", .jnull), ("moisture_raw", .jint 320),
        ("moisture_pct", .jnum 50), ("err", .jstr "")]))
      (SerialIngestor.process_line "2024-01-01T00:00:00+00:00" .checkFail "l7"
        (.value (.jobj [("plant_id", .jint 1), ("seq", .jint 7), ("lux", .jnull),
          ("rh", .jnull), ("temp", .jnull), ("moisture_raw", .jint 320),
          ("moisture_pct", .jnum 50), ("err", .jstr "")]))
        { readings := [], bad_rows := [], ingest_state := [],
          last_seq_by_plant := [], dropped_dups := 0 })).dropped_dups = 1 := by
  refine ⟨?_, ?_, ?_, ?_, ?_⟩ <;> decide

/-! ### C1: sequence dedup -/

/-- C1 counterexample: plant 1 sends seq=5 and then seq=3; both lines are
accepted and persisted (the stored sequence numbers of the plant are
[5, 3], not strictly increasing) and the drop counter stays 0, so a seq
strictly below the last recorded one is not dropped. -/
theorem C1_counterexample :
    SerialIngestor.seqsOf 1
      (SerialIngestor.runLoop "2024-01-01T00:00:00+00:00"
        [("l5", .value (.jobj [("plant_id", .jint 1), ("seq", .jint 5), ("lux", .jnull),
            ("rh", .jnull), ("temp", .jnull), ("moisture_raw", .jint 320),
            ("moisture_pct", .jnum 50), ("err", .jstr "")]), .ok),
         ("l3", .value (.jobj [("plant_id", .jint 1), ("seq", .jint 3), ("lux", .jnull),
            ("rh", .jnull), ("temp", .jnull), ("moisture_raw", .jint 320),
            ("moisture_pct", .jnum 50), ("err", .jstr "")]), .ok)]
        { readings := [], bad_rows := [], ingest_state := [],
          last_seq_by_plant := [], dropped_dups := 0 }).readings
      = [some 5, some 3] ∧
    (SerialIngestor.runLoop "2024-01-01T00:00:00+00:00"
        [("l5", .value (.jobj [("plant_id", .jint 1), ("seq", .jint 5), ("lux", .jnull),
            ("rh", .jnull), ("temp", .jnull), ("moisture_raw", .jint 320),
            ("moisture_pct", .jnum 50), ("err", .jstr "")]), .ok),
         ("l3", .value (.jobj [("plant_id", .jint 1), ("seq", .jint 3), ("lux", .jnull),
            ("rh", .jnull), ("temp", .jnull), ("moisture_raw", .jint 320),
            ("moisture_pct", .jnum 50), ("err", .jstr "")]), .ok)]
        { readings := [], bad_rows := [], ingest_state := [],
          last_seq_by_plant := [], dropped_dups := 0 }).dropped_dups = 0 := by
  constructor <;> decide

section C1Lemmas

open SerialIngestor

theorem validateKeys_ok_mem (fields : List (String × JVal)) :
    ∀ l : List (String × (JVal → Bool)), validateKeys fields l = .ok () →
      ∀ kc ∈ l, ∃ v, lookupField fields kc.1 = some v ∧ kc.2 v = true := by
  intro l
  induction l with
  | nil => intro _ kc hkc; cases hkc
  | cons a rest ih =>
    obtain ⟨k, chk⟩ := a
    intro hok kc hkc
    unfold validateKeys at hok
    rcases hl : lookupField fields k with _ | v
    · simp only [hl] at hok
      exact Except.noConfusion hok
    · simp only [hl] at hok
      by_cases hchk : chk v = true
      · rw [if_pos hchk] at hok
        rcases List.mem_cons.mp hkc with rfl | hmem
        · exact ⟨v, hl, hchk⟩
        · exact ih hok kc hmem
      · rw [if_neg hchk] at hok; cases hok

theorem extractPayload_seq (fields : List (String × JVal)) (p : Payload)
    (h : extractPayload fields = some p) :
    p.seq = (lookupField fields "seq").bind asInt := by
  rcases h1 : asInt ((lookupField fields "plant_id").getD .jnull) with _ | plant <;>
    rcases h2 : asInt ((lookupField fields "moisture_raw").getD .jnull) with _ | mraw <;>
    simp only [extractPayload, h1, h2] at h
  all_goals first
    | exact Option.noConfusion h
    | (obtain rfl := Option.some.inj h; rfl)

theorem decodeLine_ok_seq (parse : ParseResult) (obj : Payload)
    (h : decodeLine parse = .ok obj) : ∃ s : Int, obj.seq = some s := by
  cases parse with
  | failed => cases h
  | value v =>
    cases v with
    | jobj fields =>
      simp only [decodeLine] at h
      cases hv : validate_payload fields with
      | error e =>
        simp only [hv] at h
        exact Except.noConfusion h
      | ok u =>
        simp only [hv] at h
        rcases he : extractPayload fields with _ | p
        · simp only [he] at h
          exact Except.noConfusion h
        · simp only [he] at h
          injection h with h'
          subst h'
          obtain ⟨w, hl, hchk⟩ :=
            validateKeys_ok_mem fields EXPECTED_KEYS hv ("seq", is_int)
              (by simp [EXPECTED_KEYS])
          have hps := extractPayload_seq fields p he
          rw [hps, hl]
          cases w <;> simp_all [is_int, asInt]
    | jnull => cases h
    | jbool b => cases h
    | jint n => cases h
    | jnum q => cases h
    | jstr s => cases h
    | jarr => cases h

theorem getAssoc_cons (a : Int × Int) (m : List (Int × Int)) (p : Int) :
    getAssoc (a :: m) p = if a.1 = p then some a.2 else getAssoc m p := by
  by_cases h : a.1 = p
  · rw [if_pos h]
    simp [getAssoc, List.find?_cons, h]
  · rw [if_neg h]
    simp [getAssoc, List.find?_cons, h]

theorem getAssoc_map_replace_self (m : List (Int × Int)) (k v : Int)
    (hany : m.any (fun kv => kv.1 = k) = true) :
    getAssoc (m.map (fun kv => if kv.1 = k then (k, v) else kv)) k = some v := by
  induction m with
  | nil => cases hany
  | cons a m ih =>
    by_cases ha : a.1 = k
    · simp [getAssoc_cons, ha]
    · have hm : m.any (fun kv => kv.1 = k) = true := by
        rcases List.any_eq_true.mp hany with ⟨x, hx, hxk⟩
        rcases List.mem_cons.mp hx with rfl | hxm
        · exact absurd (of_decide_eq_true hxk) ha
        · exact List.any_eq_true.mpr ⟨x, hxm, hxk⟩
      rw [List.map_cons, getAssoc_cons, if_neg ha, if_neg ha]
      exact ih hm

theorem getAssoc_map_replace_ne (m : List (Int × Int)) (k v p : Int) (hne : k ≠ p) :
    getAssoc (m.map (fun kv => if kv.1 = k then (k, v) else kv)) p = getAssoc m p := by
  induction m with
  | nil => rfl
  | cons a m ih =>
    rw [List.map_cons, getAssoc_cons, getAssoc_cons]
    by_cases ha : a.1 = k
    · rw [if_pos ha]
      have hap : ¬ a.1 = p := fun h => hne (ha ▸ h)
      rw [if_neg hne, if_neg hap]
      exact ih
    · rw [if_neg ha]
      by_cases hap : a.1 = p
      · rw [if_pos hap, if_pos hap]
      · rw [if_neg hap, if_neg hap]
        exact ih

theorem getAssoc_append_single_self (m : List (Int × Int)) (k v : Int)
    (hany : ¬ m.any (fun kv => kv.1 = k) = true) :
    getAssoc (m ++ [(k, v)]) k = some v := by
  induction m with
  | nil => simp [getAssoc_cons, getAssoc]
  | cons a m ih =>
    have ha : ¬ a.1 = k := fun hak =>
      hany (List.any_eq_true.mpr ⟨a, List.mem_cons_self a m, decide_eq_true hak⟩)
    have hm : ¬ m.any (fun kv => kv.1 = k) = true := fun hmany => by
      rcases List.any_eq_true.mp hmany with ⟨x, hx, hxk⟩
      exact hany (List.any_eq_true.mpr ⟨x, List.mem_cons_of_mem a hx, hxk⟩)
    rw [List.cons_append, getAssoc_cons, if_neg ha]
    exact ih hm

theorem getAssoc_append_single_ne (m : List (Int × Int)) (k v p : Int) (hne : k ≠ p) :
    getAssoc (m ++ [(k, v)]) p = getAssoc m p := by
  induction m with
  | nil =>
    show getAssoc ((k, v) :: []) p = getAssoc [] p
    rw [getAssoc_cons, if_neg hne]
  | cons a m ih =>
    rw [List.cons_append, getAssoc_cons, getAssoc_cons]
    by_cases hap : a.1 = p
    · rw [if_pos hap, if_pos hap]
    · rw [if_neg hap, if_neg hap]
      exact ih

theorem getAssoc_setAssoc_self (m : List (Int × Int)) (k v : Int) :
    getAssoc (setAssoc m k v) k = some v := by
  unfold setAssoc
  by_cases hany : m.any (fun kv => kv.1 = k) = true
  · rw [if_pos hany]; exact getAssoc_map_replace_self m k v hany
  · rw [if_neg hany]; exact getAssoc_append_single_self m k v hany

theorem getAssoc_setAssoc_ne (m : List (Int × Int)) (k v p : Int) (hne : k ≠ p) :
    getAssoc (setAssoc m k v) p = getAssoc m p := by
  unfold setAssoc
  by_cases hany : m.any (fun kv => kv.1 = k) = true
  · rw [if_pos hany]; exact getAssoc_map_replace_ne m k v p hne
  · rw [if_neg hany]; exact getAssoc_append_single_ne m k v p hne

theorem seqsOf_append_row (p : Int) (rows : List Row) (r : Row) :
    seqsOf p (rows ++ [r]) =
      seqsOf p rows ++ (if r.plant_id = p then [r.seq] else []) := by
  by_cases h : r.plant_id = p
  · simp [seqsOf, List.filter_append, h]
  · simp [seqsOf, List.filter_append, h]

theorem seqInv_insertPhase_ok (now_iso line : String) (obj : Payload)
    (st : LoopState) (s : Int) (hs : obj.seq = some s)
    (hlast : ∀ t : Int,
      (seqsOf obj.plant_id st.readings).getLast? = some (some t) → t ≠ s)
    (h : SeqInv st) :
    SeqInv (insertPhase now_iso .ok line obj
      { st with last_seq_by_plant := setAssoc st.last_seq_by_plant obj.plant_id s }) := by
  have hred : insertPhase now_iso .ok line obj
      { st with last_seq_by_plant := setAssoc st.last_seq_by_plant obj.plant_id s }
      = { readings := st.readings ++ [row_from_payload now_iso line obj]
          bad_rows := st.bad_rows
          ingest_state := persist_last_seq st.ingest_state obj.plant_id obj.seq
          last_seq_by_plant := setAssoc st.last_seq_by_plant obj.plant_id s
          dropped_dups := st.dropped_dups } := rfl
  rw [hred]
  intro p
  have hrp : (row_from_payload now_iso line obj).plant_id = obj.plant_id := rfl
  have hrs : (row_from_payload now_iso line obj).seq = some s := hs
  by_cases hp : obj.plant_id = p
  · constructor
    · rw [seqsOf_append_row, hrp, if_pos hp, List.chain'_append]
      refine ⟨(h p).1, List.chain'_singleton _, ?_⟩
      intro x hx y hy
      simp only [List.head?_cons, Option.mem_def, Option.some.injEq] at hy
      subst hy
      rw [hrs]
      cases x with
      | none => simp
      | some t =>
        have ht : t ≠ s := by
          apply hlast
          rw [hp]
          exact hx
        simpa using ht
    · intro t ht
      rw [seqsOf_append_row, hrp, if_pos hp, hrs, List.getLast?_concat] at ht
      obtain rfl : s = t := by simpa using ht
      subst hp
      exact getAssoc_setAssoc_self st.last_seq_by_plant obj.plant_id s
  · constructor
    · rw [seqsOf_append_row, hrp, if_neg hp, List.append_nil]
      exact (h p).1
    · intro t ht
      rw [seqsOf_append_row, hrp, if_neg hp, List.append_nil] at ht
      rw [getAssoc_setAssoc_ne st.last_seq_by_plant obj.plant_id s p hp]
      exact (h p).2 t ht

theorem seqInv_process_line (now_iso line : String) (parse : ParseResult)
    (st : LoopState) (h : SeqInv st) :
    SeqInv (process_line now_iso .ok line parse st) := by
  unfold process_line
  by_cases hb : pstrip line = ""
  · rw [if_pos hb]; exact h
  rw [if_neg hb]
  cases hd : decodeLine parse with
  | error e => exact fun p => ⟨(h p).1, (h p).2⟩
  | ok obj =>
    obtain ⟨s, hs⟩ := decodeLine_ok_seq parse obj hd
    cases hprev : getAssoc st.last_seq_by_plant obj.plant_id with
    | some prev =>
      by_cases hsp : s = prev
      · simp only [hs, hprev, if_pos hsp]
        exact fun p => ⟨(h p).1, (h p).2⟩
      · simp only [hs, hprev, if_neg hsp]
        refine seqInv_insertPhase_ok now_iso line obj st s hs ?_ h
        intro t ht
        have hmt := (h obj.plant_id).2 t ht
        rw [hprev] at hmt
        obtain rfl : prev = t := by simpa using hmt
        exact fun hts => hsp hts.symm
    | none =>
      simp only [hs, hprev]
      refine seqInv_insertPhase_ok now_iso line obj st s hs ?_ h
      intro t ht
      have hmt := (h obj.plant_id).2 t ht
      rw [hprev] at hmt
      exact absurd hmt (by simp)

theorem seqInv_runLoop (now_iso : String)
    (items : List (String × ParseResult × InsertResult))
    (hins : ∀ it ∈ items, it.2.2 = InsertResult.ok)
    (st : LoopState) (h : SeqInv st) :
    SeqInv (runLoop now_iso items st) := by
  induction items generalizing st with
  | nil => exact h
  | cons it items ih =>
    show SeqInv (runLoop now_iso items (process_line now_iso it.2.2 it.1 it.2.1 st))
    rw [hins it (List.mem_cons_self _ _)]
    exact ih (fun x hx => hins x (List.mem_cons_of_mem _ hx)) _
      (seqInv_process_line now_iso it.1 it.2.1 st h)

theorem seqInv_of_empty (st : LoopState) (h : st.readings = []) : SeqInv st := by
  intro p
  constructor
  · rw [h]
    exact List.chain'_nil
  · intro t ht
    rw [h] at ht
    exact absurd ht (by simp [seqsOf])

end C1Lemmas

/-- C1 amended: a line whose seq equals the last recorded seq of its plant
is dropped and only increments the duplicate counter (nothing is persisted),
but a strictly lower seq is accepted, persisted and becomes the new last
seq.  Consequently the stored sequence numbers of a probe are not strictly
increasing; what holds is that consecutively accepted readings of a probe
never repeat a sequence number (when all inserts succeed). -/
theorem C1_amended :
    (∀ (now_iso line : String) (ins : SerialIngestor.InsertResult)
       (parse : SerialIngestor.ParseResult) (st : SerialIngestor.LoopState)
       (obj : SerialIngestor.Payload) (s : Int),
        SerialIngestor.pstrip line ≠ "" →
        SerialIngestor.decodeLine parse = .ok obj →
        obj.seq = some s →
        SerialIngestor.getAssoc st.last_seq_by_plant obj.plant_id = some s →
        SerialIngestor.process_line now_iso ins line parse st
          = { st with dropped_dups := st.dropped_dups + 1 }) ∧
    (∀ (now_iso : String)
       (items : List (String × SerialIngestor.ParseResult × SerialIngestor.InsertResult))
       (st : SerialIngestor.LoopState),
        (∀ it ∈ items, it.2.2 = SerialIngestor.InsertResult.ok) →
        st.readings = [] →
        ∀ p : Int, List.Chain' (· ≠ ·)
          (SerialIngestor.seqsOf p (SerialIngestor.runLoop now_iso items st).readings)) := by
  constructor
  · intro now_iso line ins parse st obj s hb hd hs hprev
    unfold SerialIngestor.process_line
    rw [if_neg hb]
    simp only [hd, hs, hprev, if_pos rfl]
    exact if_pos trivial
  · intro now_iso items st hins h0 p
    exact (seqInv_runLoop now_iso items hins st (seqInv_of_empty st h0) p).1

/-- C1 witness: the amended theorem applied concretely: a repeat of seq 5
for plant 1 only bumps the drop counter, and the seqs accepted from the
trace seq 5, seq 5, seq 3 satisfy the consecutive-distinctness chain. -/
theorem C1_witness :
    SerialIngestor.process_line "T" .ok "l5"
      (.value (.jobj [("plant_id", .jint 1), ("seq", .jint 5), ("lux", .jnull),
        ("rh", .jnull), ("temp", .jnull), ("moisture_raw", .jint 320),
        ("moisture_pct", .jnum 50), ("err", .jstr "")]))
      { readings := [], bad_rows := [], ingest_state := [],
        last_seq_by_plant := [(1, 5)], dropped_dups := 0 }
      = { readings := [], bad_rows := [], ingest_state := [],
          last_seq_by_plant := [(1, 5)], dropped_dups := 0 + 1 } ∧
    List.Chain' (· ≠ ·)
      (SerialIngestor.seqsOf 1
        (SerialIngestor.runLoop "T"
          [("l5", .value (.jobj [("plant_id", .jint 1), ("seq", .jint 5), ("lux", .jnull),
              ("rh", .jnull), ("temp", .jnull), ("moisture_raw", .jint 320),
              ("moisture_pct", .jnum 50), ("err", .jstr "")]), .ok),
           ("l5b", .value (.jobj [("plant_id", .jint 1), ("seq", .jint 5), ("lux", .jnull),
              ("rh", .jnull), ("temp", .jnull), ("moisture_raw", .jint 320),
              ("moisture_pct", .jnum 50), ("err", .jstr "")]), .ok),
           ("l3", .value (.jobj [("plant_id", .jint 1), ("seq", .jint 3), ("lux", .jnull),
              ("rh", .jnull), ("temp", .jnull), ("moisture_raw", .jint 320),
              ("moisture_pct", .jnum 50), ("err", .jstr "")]), .ok)]
          { readings := [], bad_rows := [], ingest_state := [],
            last_seq_by_plant := [], dropped_dups := 0 }).readings) := by
  constructor
  · exact C1_amended.1 "T" "l5" .ok _ _
      { plant_id := 1, seq := some 5, lux := none, rh := none, temp := none,
        moisture_raw := 320, moisture_pct := some 50, err := "" } 5
      (by decide) rfl rfl (by decide)
  · exact C1_amended.2 "T" _ _ (by decide) rfl 1

/-! ### C8: the frame decoder -/

section C8Lemmas

open SerialIngestor

theorem validateKeys_ok_iff (fields : List (String × JVal)) :
    ∀ l : List (String × (JVal → Bool)),
      validateKeys fields l = .ok () ↔
        l.all (fun kc => checkKey fields kc.1 kc.2) = true := by
  intro l
  induction l with
  | nil => simp [validateKeys]
  | cons a rest ih =>
    obtain ⟨k, chk⟩ := a
    unfold validateKeys
    rcases hl : lookupField fields k with _ | v
    · simp [checkKey, hl]
    · by_cases hchk : chk v = true
      · simp [checkKey, hl, hchk, ih]
      · simp [checkKey, hl, hchk]

end C8Lemmas

/-- C8 counterexample: the full wire-format object of the claim with
`moisture_pct` null (and every other field well typed) is rejected by the
decoder with a type error, although the claim's wire format admits
`moisture_pct : number|null`; the decoder demands a non-null number there
(and likewise a non-null string for `err`). -/
theorem C8_counterexample :
    SerialIngestor.claim_wire_ok
      [("plant_id", .jint 1), ("seq", .jint 5), ("lux", .jnull), ("rh", .jnull),
       ("temp", .jnull), ("moisture_raw", .jint 320), ("moisture_pct", .jnull),
       ("err", .jstr "")] = true ∧
    SerialIngestor.validate_payload
      [("plant_id", .jint 1), ("seq", .jint 5), ("lux", .jnull), ("rh", .jnull),
       ("temp", .jnull), ("moisture_raw", .jint 320), ("moisture_pct", .jnull),
       ("err", .jstr "")] = .error "Bad type for key moisture_pct" := by
  constructor
  · decide
  · rfl

/-- C8 amended: the decoder accepts exactly the JSON objects whose
plant_id, seq and moisture_raw are ints (Python bools count as ints), whose
lux, rh and temp are numbers or null, whose moisture_pct is a non-null
number and whose err is a non-null string, ignoring unknown extra fields;
empty or whitespace-only lines yield no record and no error, and a
non-blank line whose JSON parse fails is recorded to the dead-letter
table. -/
theorem C8_amended :
    (∀ fields : List (String × SerialIngestor.JVal),
        SerialIngestor.validate_payload fields = .ok () ↔
          SerialIngestor.amended_wire_ok fields = true) ∧
    (∀ (now_iso line : String) (ins : SerialIngestor.InsertResult)
       (parse : SerialIngestor.ParseResult) (st : SerialIngestor.LoopState),
        SerialIngestor.pstrip line = "" →
        SerialIngestor.process_line now_iso ins line parse st = st) ∧
    (∀ (now_iso line : String) (ins : SerialIngestor.InsertResult)
       (st : SerialIngestor.LoopState),
        SerialIngestor.pstrip line ≠ "" →
        SerialIngestor.process_line now_iso ins line .failed st
          = { st with bad_rows :=
                st.bad_rows ++ [(SerialIngestor.pstrip line, "JSONDecodeError")] }) := by
  refine ⟨?_, ?_, ?_⟩
  · intro fields
    rw [SerialIngestor.validate_payload, validateKeys_ok_iff]
    simp [SerialIngestor.EXPECTED_KEYS, SerialIngestor.amended_wire_ok,
      Bool.and_eq_true, and_assoc]
  · intro now_iso line ins parse st hb
    unfold SerialIngestor.process_line
    rw [if_pos hb]
  · intro now_iso line ins st hb
    unfold SerialIngestor.process_line
    rw [if_neg hb]
    rfl

/-- C8 witness: the amended theorem applied concretely: a fully well-typed
payload is accepted, a whitespace-only line leaves the state unchanged, and
a non-blank unparsable line is dead-lettered. -/
theorem C8_witness :
    SerialIngestor.validate_payload
      [("plant_id", .jint 1), ("seq", .jint 5), ("lux", .jnull), ("rh", .jnull),
       ("temp", .jnull), ("moisture_raw", .jint 320), ("moisture_pct", .jnum 50),
       ("err", .jstr ""), ("extra_unknown", .jarr)] = .ok () ∧
    SerialIngestor.process_line "T" .ok "   " .failed
      { readings := [], bad_rows := [], ingest_state := [],
        last_seq_by_plant := [], dropped_dups := 0 }
      = { readings := [], bad_rows := [], ingest_state := [],
          last_seq_by_plant := [], dropped_dups := 0 } ∧
    SerialIngestor.process_line "T" .ok "x" .failed
      { readings := [], bad_rows := [], ingest_state := [],
        last_seq_by_plant := [], dropped_dups := 0 }
      = { readings := [], bad_rows := [("x", "JSONDecodeError")], ingest_state := [],
          last_seq_by_plant := [], dropped_dups := 0 } :=
  ⟨(C8_amended.1 _).mpr (by decide),
   C8_amended.2.1 "T" "   " .ok .failed _ (by decide),
   C8_amended.2.2 "T" "x" .ok _ (by decide)⟩

/-! ### C7: batch insert atomicity -/

/-- C7: `insert_batch_readings` is all-or-nothing.  When it reports failure
(a row that fails validation in `__build_row` — bad timestamp, wrong type or
no measurement — or any failing insert inside the transaction) the store is
unchanged; when it reports success every built row of the batch has been
appended; and an invalid row anywhere in the batch always yields failure
with the store unchanged. -/
theorem C7_insert_batch_atomic (insFail : Store.RowR → Bool) (db : Store.DB)
    (payloads : List (List (String × Store.Value))) :
    ((Store.insert_batch_readings insFail db payloads).1 = false →
      (Store.insert_batch_readings insFail db payloads).2 = db) ∧
    ((Store.insert_batch_readings insFail db payloads).1 = true →
      ∃ rows, Store.build_rows payloads = .ok rows ∧
        (Store.insert_batch_readings insFail db payloads).2.rows = db.rows ++ rows ∧
        ∀ r ∈ rows, insFail r = false) ∧
    ((∃ e, Store.build_rows payloads = .error e) →
      (Store.insert_batch_readings insFail db payloads).1 = false ∧
      (Store.insert_batch_readings insFail db payloads).2 = db) := by
  by_cases hT : db.hasReadings = true
  · cases hm : Store.build_rows payloads with
    | error e =>
      have hv : Store.insert_batch_readings insFail db payloads = (false, db) := by
        simp [Store.insert_batch_readings, hT, hm]
      rw [hv]
      exact ⟨fun _ => rfl, fun h => absurd h (by simp), fun _ => ⟨rfl, rfl⟩⟩
    | ok rows =>
      by_cases hnil : rows = []
      · subst hnil
        have hv : Store.insert_batch_readings insFail db payloads = (true, db) := by
          simp [Store.insert_batch_readings, hT, hm]
        rw [hv]
        refine ⟨fun h => absurd h (by simp), fun _ => ⟨[], rfl, by simp, by simp⟩, ?_⟩
        rintro ⟨e, he⟩
        exact Except.noConfusion he
      · by_cases hfail : rows.any insFail = true
        · have hv : Store.insert_batch_readings insFail db payloads = (false, db) := by
            simp [Store.insert_batch_readings, hT, hm, hnil, hfail]
          rw [hv]
          refine ⟨fun _ => rfl, fun h => absurd h (by simp), ?_⟩
          rintro ⟨e, he⟩
          exact Except.noConfusion he
        · have hv : Store.insert_batch_readings insFail db payloads
              = (true, { db with rows := db.rows ++ rows }) := by
            simp [Store.insert_batch_readings, hT, hm, hnil, hfail]
          rw [hv]
          refine ⟨fun h => absurd h (by simp), ?_, ?_⟩
          · intro _
            refine ⟨rows, rfl, rfl, ?_⟩
            intro r hr
            by_contra hc
            exact hfail (List.any_eq_true.mpr ⟨r, hr, by simpa using hc⟩)
          · rintro ⟨e, he⟩
            exact Except.noConfusion he
  · have hv : Store.insert_batch_readings insFail db payloads = (false, db) := by
      simp [Store.insert_batch_readings, hT]
    rw [hv]
    exact ⟨fun _ => rfl, fun h => absurd h (by simp), fun _ => ⟨rfl, rfl⟩⟩

/-- C7 witness: the theorem applied concretely: a batch whose second row
has an invalid timestamp is rejected with the store unchanged, explicitly
instantiating the invalid-row clause. -/
theorem C7_witness :
    (Store.insert_batch_readings (fun _ => false) { hasReadings := true, rows := [] }
      [[("ts", .vstr "2024-01-02 03:04:05"), ("probe_id", .vint 1),
        ("moisture_raw", .vint 320)],
       [("ts", .vstr "not a timestamp"), ("moisture_raw", .vint 1)]]).1 = false ∧
    (Store.insert_batch_readings (fun _ => false) { hasReadings := true, rows := [] }
      [[("ts", .vstr "2024-01-02 03:04:05"), ("probe_id", .vint 1),
        ("moisture_raw", .vint 320)],
       [("ts", .vstr "not a timestamp"), ("moisture_raw", .vint 1)]]).2
      = { hasReadings := true, rows := [] } :=
  (C7_insert_batch_atomic (fun _ => false) { hasReadings := true, rows := [] }
    [[("ts", .vstr "2024-01-02 03:04:05"), ("probe_id", .vint 1),
      ("moisture_raw", .vint 320)],
     [("ts", .vstr "not a timestamp"), ("moisture_raw", .vint 1)]]).2.2
    ⟨"Invalid timestamp format", rfl⟩

/-! ### C10: get_last_readings ordering -/

section SortLemmas

open List

theorem insertSorted_perm {α : Type} (le : α → α → Bool) (a : α) (l : List α) :
    insertSorted le a l ~ a :: l := by
  induction l with
  | nil => exact List.Perm.refl _
  | cons b m ih =>
    unfold insertSorted
    by_cases h : le a b = true
    · rw [if_pos h]
    · rw [if_neg h]
      exact (ih.cons b).trans (List.Perm.swap a b m)

theorem sortByLe_perm {α : Type} (le : α → α → Bool) (l : List α) :
    sortByLe le l ~ l := by
  induction l with
  | nil => exact List.Perm.refl _
  | cons a m ih =>
    exact (insertSorted_perm le a (sortByLe le m)).trans (ih.cons a)

theorem insertSorted_pairwise {α : Type} (le : α → α → Bool)
    (htot : ∀ a b, le a b = true ∨ le b a = true)
    (htrans : ∀ a b c, le a b = true → le b c = true → le a c = true)
    (a : α) (l : List α) (hl : l.Pairwise (fun x y => le x y = true)) :
    (insertSorted le a l).Pairwise (fun x y => le x y = true) := by
  induction l with
  | nil => simp [insertSorted]
  | cons b m ih =>
    rcases List.pairwise_cons.mp hl with ⟨hb, hm⟩
    unfold insertSorted
    by_cases h : le a b = true
    · rw [if_pos h]
      refine List.pairwise_cons.mpr ⟨?_, hl⟩
      intro y hy
      rcases List.mem_cons.mp hy with rfl | hym
      · exact h
      · exact htrans a b y h (hb y hym)
    · rw [if_neg h]
      refine List.pairwise_cons.mpr ⟨?_, ih hm⟩
      intro y hy
      have hy' : y ∈ a :: m := (insertSorted_perm le a m).subset hy
      rcases List.mem_cons.mp hy' with hya | hym
      · rcases htot a b with h1 | h1
        · exact absurd h1 h
        · rw [hya]
          exact h1
      · exact hb y hym

theorem sortByLe_pairwise {α : Type} (le : α → α → Bool)
    (htot : ∀ a b, le a b = true ∨ le b a = true)
    (htrans : ∀ a b c, le a b = true → le b c = true → le a c = true)
    (l : List α) :
    (sortByLe le l).Pairwise (fun x y => le x y = true) := by
  induction l with
  | nil => exact List.Pairwise.nil
  | cons a m ih => exact insertSorted_pairwise le htot htrans a (sortByLe le m) ih

theorem insertSorted_append_of_all_false {α : Type} (le : α → α → Bool) (a : α)
    (m : List α) (h : ∀ y ∈ m, le a y = false) :
    insertSorted le a m = m ++ [a] := by
  induction m with
  | nil => rfl
  | cons b l ih =>
    unfold insertSorted
    rw [if_neg (by simp [h b (List.mem_cons_self b l)])]
    rw [ih (fun y hy => h y (List.mem_cons_of_mem _ hy))]
    rfl

theorem leAsc_total (a b : Store.StoredReading) :
    Store.leAsc a b = true ∨ Store.leAsc b a = true := by
  simp only [Store.leAsc, decide_eq_true_eq]
  omega

theorem leAsc_trans (a b c : Store.StoredReading)
    (h1 : Store.leAsc a b = true) (h2 : Store.leAsc b c = true) :
    Store.leAsc a c = true := by
  simp only [Store.leAsc, decide_eq_true_eq] at h1 h2 ⊢
  omega

theorem leAsc_antisymm (a b : Store.StoredReading)
    (h1 : Store.leAsc a b = true) (h2 : Store.leAsc b a = true) :
    Store.skey a = Store.skey b := by
  simp only [Store.leAsc, decide_eq_true_eq] at h1 h2
  simp only [Store.skey, Prod.mk.injEq]
  omega

theorem sortAsc_eq_reverse_of_sorted_desc (l : List Store.StoredReading)
    (hdesc : l.Pairwise (fun x y => Store.leDesc x y = true))
    (hnd : (l.map Store.skey).Nodup) :
    sortByLe Store.leAsc l = l.reverse := by
  induction l with
  | nil => rfl
  | cons x xs ih =>
    rcases List.pairwise_cons.mp hdesc with ⟨hx, hxs⟩
    rw [List.map_cons, List.nodup_cons] at hnd
    rcases hnd with ⟨hkx, hkxs⟩
    have hsort : sortByLe Store.leAsc (x :: xs)
        = insertSorted Store.leAsc x (sortByLe Store.leAsc xs) := rfl
    rw [hsort, ih hxs hkxs, insertSorted_append_of_all_false, List.reverse_cons]
    intro y hy
    have hym : y ∈ xs := List.mem_reverse.mp hy
    have h1 : Store.leAsc y x = true := hx y hym
    by_contra hc
    have h2 : Store.leAsc x y = true := by
      cases hxy : Store.leAsc x y with
      | true => rfl
      | false => exact absurd hxy hc
    have hkey := leAsc_antisymm x y h2 h1
    exact hkx (hkey ▸ List.mem_map_of_mem Store.skey hym)

end SortLemmas

/-- C10: `get_last_readings(n, oldest_first=True)` returns exactly the rows
of `get_last_readings(n, oldest_first=False)` in reverse order: both select
the n most recent rows (ORDER BY ts then id, descending), and the
oldest_first flag only re-sorts that window ascending, never selecting the
oldest n rows of the table instead. -/
theorem C10_oldest_first_is_reverse (hasTable : Bool)
    (rows : List Store.StoredReading) (n : Nat)
    (_hn : 1 ≤ n) (hid : (rows.map (·.id)).Nodup) :
    Store.get_last_readings hasTable rows n true
      = (Store.get_last_readings hasTable rows n false).reverse := by
  unfold Store.get_last_readings
  cases hasTable with
  | false => simp
  | true =>
    simp only [Bool.not_true, Bool.false_eq_true, if_false, if_true]
    apply sortAsc_eq_reverse_of_sorted_desc
    · refine List.Pairwise.sublist (List.take_sublist n _) ?_
      refine sortByLe_pairwise Store.leDesc ?_ ?_ rows
      · intro a b
        exact leAsc_total b a
      · intro a b c h1 h2
        exact leAsc_trans c b a h2 h1
    · have h1 : (rows.map Store.skey).Nodup := by
        refine List.Nodup.of_map Prod.snd ?_
        rw [List.map_map]
        exact hid
      have h2 : ((sortByLe Store.leDesc rows).map Store.skey).Nodup :=
        (((sortByLe_perm Store.leDesc rows).map Store.skey).nodup_iff).mpr h1
      rw [List.map_take]
      exact List.Nodup.sublist (List.take_sublist n _) h2

/-- C10 witness: the theorem applied to a concrete two-row store. -/
theorem C10_witness :
    Store.get_last_readings true
      [{ id := 1, ts := 10, probe_id := some 1, lux := none, rh := none,
         temp_c := none, moisture_raw := some 3, moisture_pct := none, seq := some 1 },
       { id := 2, ts := 20, probe_id := some 1, lux := none, rh := none,
         temp_c := none, moisture_raw := some 4, moisture_pct := none, seq := some 2 }]
      2 true
      = (Store.get_last_readings true
          [{ id := 1, ts := 10, probe_id := some 1, lux := none, rh := none,
             temp_c := none, moisture_raw := some 3, moisture_pct := none, seq := some 1 },
           { id := 2, ts := 20, probe_id := some 1, lux := none, rh := none,
             temp_c := none, moisture_raw := some 4, moisture_pct := none, seq := some 2 }]
          2 false).reverse :=
  C10_oldest_first_is_reverse true _ 2 (by decide) (by decide)

/-! ### C9: spool rotation -/

section SpoolLemmas

theorem insertSorted_cons_of_all {α : Type} (le : α → α → Bool) (x : α) (m : List α)
    (h : ∀ b ∈ m, le x b = true) :
    insertSorted le x m = x :: m := by
  cases m with
  | nil => rfl
  | cons b l =>
    unfold insertSorted
    rw [if_pos (h b (List.mem_cons_self b l))]

theorem list_rotations_cons_max (seg : Spool.Segment) (rotated : List Spool.Segment)
    (h : ∀ s ∈ rotated, s.mtime ≤ seg.mtime) :
    Spool.list_rotations (seg :: rotated) = seg :: Spool.list_rotations rotated := by
  unfold Spool.list_rotations
  show insertSorted _ seg (sortByLe _ rotated) = _
  apply insertSorted_cons_of_all
  intro b hb
  have hbm : b ∈ rotated := (sortByLe_perm _ rotated).subset hb
  simpa using h b hbm

end SpoolLemmas

/-- C9: when the active spool segment reaches the rotation size threshold,
it is closed and renamed to `base.<timestamp>.ndjson`, a new empty segment
is opened (size 0, offset marker saved at 0), and the retired segments are
pruned to the `SPOOL_KEEP_FILES` most recent ones: the result keeps exactly
the first `SPOOL_KEEP_FILES` entries of the newest-first listing headed by
the just-rotated segment, so the retained count is the minimum of the
retention limit and the number of retired segments. -/
theorem C9_rotation_prunes_to_keep (base ts : String) (mt : Nat) (fs : Spool.SpoolFS)
    (hsize : Spool.SPOOL_ROTATE_BYTES ≤ fs.active_size)
    (hmt : ∀ s ∈ fs.rotated, s.mtime ≤ mt) :
    Spool.rotate_spool_if_needed base ts mt fs
      = { active_size := 0, offset := 0,
          rotated := ({ name := base ++ "." ++ ts ++ ".ndjson", mtime := mt } ::
            Spool.list_rotations fs.rotated).take Spool.SPOOL_KEEP_FILES } ∧
    (Spool.rotate_spool_if_needed base ts mt fs).rotated.length
      = min Spool.SPOOL_KEEP_FILES (fs.rotated.length + 1) := by
  have hrot : Spool.list_rotations
      ({ name := base ++ "." ++ ts ++ ".ndjson", mtime := mt } :: fs.rotated)
      = { name := base ++ "." ++ ts ++ ".ndjson", mtime := mt }
          :: Spool.list_rotations fs.rotated :=
    list_rotations_cons_max _ fs.rotated hmt
  have hv : Spool.rotate_spool_if_needed base ts mt fs
      = { active_size := 0, offset := 0,
          rotated := ({ name := base ++ "." ++ ts ++ ".ndjson", mtime := mt } ::
            Spool.list_rotations fs.rotated).take Spool.SPOOL_KEEP_FILES } := by
    unfold Spool.rotate_spool_if_needed
    rw [if_neg (Nat.not_lt.mpr hsize)]
    simp only [hrot]
  refine ⟨hv, ?_⟩
  rw [hv]
  show (List.take Spool.SPOOL_KEEP_FILES _).length = _
  have hlen : (Spool.list_rotations fs.rotated).length = fs.rotated.length :=
    (sortByLe_perm _ fs.rotated).length_eq
  rw [List.length_take, List.length_cons, hlen]

/-- C9 witness: the theorem applied to a spool at the threshold with six
retired segments: exactly the five most recent remain after rotation. -/
theorem C9_witness :
    Spool.rotate_spool_if_needed "ingest_spool.ndjson" "20240101T000000Z" 7
      { active_size := 200 * 1024 * 1024, offset := 12345,
        rotated := [{ name := "a", mtime := 1 }, { name := "b", mtime := 2 },
                    { name := "c", mtime := 3 }, { name := "d", mtime := 4 },
                    { name := "e", mtime := 5 }, { name := "f", mtime := 6 }] }
      = { active_size := 0, offset := 0,
          rotated := ({ name := "ingest_spool.ndjson.20240101T000000Z.ndjson", mtime := 7 } ::
            Spool.list_rotations
              [{ name := "a", mtime := 1 }, { name := "b", mtime := 2 },
               { name := "c", mtime := 3 }, { name := "d", mtime := 4 },
               { name := "e", mtime := 5 }, { name := "f", mtime := 6 }]).take
            Spool.SPOOL_KEEP_FILES } ∧
    (Spool.rotate_spool_if_needed "ingest_spool.ndjson" "20240101T000000Z" 7
      { active_size := 200 * 1024 * 1024, offset := 12345,
        rotated := [{ name := "a", mtime := 1 }, { name := "b", mtime := 2 },
                    { name := "c", mtime := 3 }, { name := "d", mtime := 4 },
                    { name := "e", mtime := 5 }, { name := "f", mtime := 6 }] }).rotated.length
      = min Spool.SPOOL_KEEP_FILES (6 + 1) :=
  C9_rotation_prunes_to_keep "ingest_spool.ndjson" "20240101T000000Z" 7 _
    (by decide) (by decide)

/-! ### C6: calibration lifecycle -/

/-- C6 counterexample: `upsert_active_calibration_from_defaults` checks for
an existing active calibration before its write transaction, not inside it.
Interleaving two such calls for the same new probe (both existence reads
before either write, as SQLite permits: reads are autocommit, only the
write transactions serialize) creates two calibration rows with distinct
returned ids — not "exactly one", and the two callers do not get the same
id — though only one row ends up active. -/
theorem C6_counterexample :
    Store.get_active_calibration_id
      { probes := [], calibs := [], next_id := 1 } 1 = none ∧
    (Store.set_active_calibration
      { probes := [], calibs := [], next_id := 1 } 1
      { raw_dry := 450, raw_wet := 190, lux_min := 0, lux_max := 10000,
        rh_min := 0, rh_max := 100, temp_min := -20, temp_max := 60,
        notes := none }).1 = some 1 ∧
    (Store.set_active_calibration
      (Store.set_active_calibration
        { probes := [], calibs := [], next_id := 1 } 1
        { raw_dry := 450, raw_wet := 190, lux_min := 0, lux_max := 10000,
          rh_min := 0, rh_max := 100, temp_min := -20, temp_max := 60,
          notes := none }).2 1
      { raw_dry := 450, raw_wet := 190, lux_min := 0, lux_max := 10000,
        rh_min := 0, rh_max := 100, temp_min := -20, temp_max := 60,
        notes := none }).1 = some 2 ∧
    ((Store.set_active_calibration
      (Store.set_active_calibration
        { probes := [], calibs := [], next_id := 1 } 1
        { raw_dry := 450, raw_wet := 190, lux_min := 0, lux_max := 10000,
          rh_min := 0, rh_max := 100, temp_min := -20, temp_max := 60,
          notes := none }).2 1
      { raw_dry := 450, raw_wet := 190, lux_min := 0, lux_max := 10000,
        rh_min := 0, rh_max := 100, temp_min := -20, temp_max := 60,
        notes := none }).2.calibs.filter (fun r => r.probe_id = 1)).length = 2 ∧
    ((Store.set_active_calibration
      (Store.set_active_calibration
        { probes := [], calibs := [], next_id := 1 } 1
        { raw_dry := 450, raw_wet := 190, lux_min := 0, lux_max := 10000,
          rh_min := 0, rh_max := 100, temp_min := -20, temp_max := 60,
          notes := none }).2 1
      { raw_dry := 450, raw_wet := 190, lux_min := 0, lux_max := 10000,
        rh_min := 0, rh_max := 100, temp_min := -20, temp_max := 60,
        notes := none }).2.calibs.filter (fun r => r.probe_id = 1 ∧ r.active)).length = 1 := by
  refine ⟨rfl, rfl, rfl, ?_, ?_⟩ <;> decide

section C6Lemmas

open Store

theorem deact_filter_nil (calibs : List CalRow) (p : Int) :
    (calibs.map (fun r => if r.probe_id = p ∧ r.active then
        { r with active := false } else r)).filter
      (fun r => r.probe_id = p ∧ r.active) = [] := by
  rw [List.filter_eq_nil_iff]
  intro r hr
  rcases List.mem_map.mp hr with ⟨r0, hr0, rfl⟩
  by_cases h : r0.probe_id = p ∧ r0.active = true
  · rw [if_pos h]
    simp
  · rw [if_neg h]
    simpa using h

theorem deact_find_none (calibs : List CalRow) (p : Int) :
    (calibs.map (fun r => if r.probe_id = p ∧ r.active then
        { r with active := false } else r)).find?
      (fun r => r.probe_id = p ∧ r.active) = none := by
  rw [List.find?_eq_none]
  intro r hr
  rcases List.mem_map.mp hr with ⟨r0, hr0, rfl⟩
  by_cases h : r0.probe_id = p ∧ r0.active = true
  · rw [if_pos h]
    simp
  · rw [if_neg h]
    simpa using h

theorem find_append_of_none {α : Type} (p : α → Bool) (l1 l2 : List α)
    (h : l1.find? p = none) : (l1 ++ l2).find? p = l2.find? p := by
  induction l1 with
  | nil => rfl
  | cons a l ih =>
    cases hp : p a with
    | true =>
      have hsome : List.find? p (a :: l) = some a := by
        simp [List.find?_cons, hp]
      rw [hsome] at h
      exact Option.noConfusion h
    | false =>
      have h1 : List.find? p (a :: l) = List.find? p l := by
        simp [List.find?_cons, hp]
      have h2 : List.find? p ((a :: l) ++ l2) = List.find? p (l ++ l2) := by
        rw [List.cons_append]
        simp [List.find?_cons, hp]
      rw [h1] at h
      rw [h2]
      exact ih h

theorem find_singleton_pos {α : Type} (p : α → Bool) (a : α) (h : p a = true) :
    List.find? p [a] = some a := by
  simp [List.find?_cons, h]

theorem ensure_probe_calibs (s : CState) (p : Int) :
    (ensure_probe_exists s p).calibs = s.calibs := by
  unfold ensure_probe_exists
  split <;> rfl

theorem ensure_probe_next_id (s : CState) (p : Int) :
    (ensure_probe_exists s p).next_id = s.next_id := by
  unfold ensure_probe_exists
  split <;> rfl

end C6Lemmas

/-- C6 amended: after `set_active_calibration` exactly one calibration row
of the probe is active (every previously active row of the probe is
deactivated in the same transaction in which the new row is inserted
active), and `upsert_active_calibration_from_defaults` returns the existing
active id unchanged when one exists and otherwise creates exactly one new
row whose id it returns as the probe's active calibration — but it checks
existence only before the write transaction, not inside it, so two
interleaved first calls can each create a row (the counterexample), the
later call winning the active flag. -/
theorem C6_amended :
    (∀ (s : Store.CState) (p : Int) (d : Store.CalDefaults),
      ((Store.set_active_calibration s p d).2.calibs.filter
        (fun r => r.probe_id = p ∧ r.active)).length = 1) ∧
    (∀ (s : Store.CState) (p : Int) (d : Store.CalDefaults) (i : Nat),
      Store.get_active_calibration_id s p = some i →
      Store.upsert_active_calibration_from_defaults s p d = (some i, s)) ∧
    (∀ (s : Store.CState) (p : Int) (d : Store.CalDefaults),
      Store.get_active_calibration_id s p = none →
      (Store.upsert_active_calibration_from_defaults s p d).2.calibs.length
          = s.calibs.length + 1 ∧
      Store.get_active_calibration_id
          (Store.upsert_active_calibration_from_defaults s p d).2 p
        = (Store.upsert_active_calibration_from_defaults s p d).1) := by
  refine ⟨?_, ?_, ?_⟩
  · intro s p d
    show ((_ ++ [_]).filter _).length = 1
    rw [List.filter_append, deact_filter_nil]
    simp
  · intro s p d i h
    unfold Store.upsert_active_calibration_from_defaults
    rw [h]
  · intro s p d h
    unfold Store.upsert_active_calibration_from_defaults
    rw [h]
    constructor
    · show ((_ ++ [_]).length) = _
      rw [List.length_append, List.length_map, ensure_probe_calibs]
      rfl
    · show ((_ ++ [_]).find? _).map _ = _
      rw [find_append_of_none _ _ _ (deact_find_none _ p)]
      rw [find_singleton_pos _ _ (by simp)]
      rfl

/-- C6 witness: the amended theorem applied concretely: activating a second
calibration for probe 1 leaves exactly one active row; with an active row
present the upsert returns its id and changes nothing; on an empty store the
upsert creates exactly one row and returns its id as the active one. -/
theorem C6_witness :
    ((Store.set_active_calibration
      { probes := [1],
        calibs := [{ id := 1, probe_id := 1, raw_dry := 450, raw_wet := 190,
                     lux_min := 0, lux_max := 10000, rh_min := 0, rh_max := 100,
                     temp_min := -20, temp_max := 60, notes := none, active := true }],
        next_id := 2 } 1
      { raw_dry := 500, raw_wet := 200, lux_min := 0, lux_max := 10000,
        rh_min := 0, rh_max := 100, temp_min := -20, temp_max := 60,
        notes := none }).2.calibs.filter
        (fun r => r.probe_id = 1 ∧ r.active)).length = 1 ∧
    Store.upsert_active_calibration_from_defaults
      { probes := [1],
        calibs := [{ id := 1, probe_id := 1, raw_dry := 450, raw_wet := 190,
                     lux_min := 0, lux_max := 10000, rh_min := 0, rh_max := 100,
                     temp_min := -20, temp_max := 60, notes := none, active := true }],
        next_id := 2 } 1
      { raw_dry := 500, raw_wet := 200, lux_min := 0, lux_max := 10000,
        rh_min := 0, rh_max := 100, temp_min := -20, temp_max := 60,
        notes := none }
      = (some 1,
         { probes := [1],
           calibs := [{ id := 1, probe_id := 1, raw_dry := 450, raw_wet := 190,
                        lux_min := 0, lux_max := 10000, rh_min := 0, rh_max := 100,
                        temp_min := -20, temp_max := 60, notes := none, active := true }],
           next_id := 2 }) ∧
    (Store.upsert_active_calibration_from_defaults
      { probes := [], calibs := [], next_id := 1 } 1
      { raw_dry := 450, raw_wet := 190, lux_min := 0, lux_max := 10000,
        rh_min := 0, rh_max := 100, temp_min := -20, temp_max := 60,
        notes := none }).2.calibs.length = 0 + 1 ∧
    Store.get_active_calibration_id
      (Store.upsert_active_calibration_from_defaults
        { probes := [], calibs := [], next_id := 1 } 1
        { raw_dry := 450, raw_wet := 190, lux_min := 0, lux_max := 10000,
          rh_min := 0, rh_max := 100, temp_min := -20, temp_max := 60,
          notes := none }).2 1
      = (Store.upsert_active_calibration_from_defaults
        { probes := [], calibs := [], next_id := 1 } 1
        { raw_dry := 450, raw_wet := 190, lux_min := 0, lux_max := 10000,
          rh_min := 0, rh_max := 100, temp_min := -20, temp_max := 60,
          notes := none }).1 :=
  ⟨C6_amended.1 _ 1 _,
   C6_amended.2.1 _ 1 _ 1 (by decide),
   (C6_amended.2.2 _ 1 _ (by decide)).1,
   (C6_amended.2.2 _ 1 _ (by decide)).2⟩

/-! ### C3: rollup idempotence and backfill -/

section RollupLemmas

open Rollup

/-- After any upserts, every row with key k equals (k, v) and k is present:
the invariant carried through the bucket-upsert proofs. -/
def KeyPinned (k : BKey) (v : Agg) (t : Table) : Prop :=
  (∀ kv ∈ t, kv.1 = k → kv = (k, v)) ∧ t.any (fun kv0 => kv0.1 = k) = true

theorem keyPinned_upsert_self (kv : BKey × Agg) (t : Table) :
    KeyPinned kv.1 kv.2 (upsertBucket kv t) := by
  unfold upsertBucket
  by_cases hany : t.any (fun kv0 => kv0.1 = kv.1) = true
  · rw [if_pos hany]
    constructor
    · intro x hx hxk
      rcases List.mem_map.mp hx with ⟨x0, hx0, rfl⟩
      by_cases h0 : x0.1 = kv.1
      · rw [if_pos h0]
      · rw [if_neg h0] at hxk ⊢
        exact absurd hxk h0
    · rcases List.any_eq_true.mp hany with ⟨x0, hx0, hxk⟩
      refine List.any_eq_true.mpr ⟨(kv.1, kv.2), ?_, by simp⟩
      refine List.mem_map.mpr ⟨x0, hx0, ?_⟩
      rw [if_pos (of_decide_eq_true hxk)]
  · rw [if_neg hany]
    constructor
    · intro x hx hxk
      rcases List.mem_append.mp hx with hxt | hxe
      · exact absurd (List.any_eq_true.mpr ⟨x, hxt, decide_eq_true hxk⟩) hany
      · simpa using List.mem_singleton.mp hxe
    · exact List.any_eq_true.mpr ⟨kv, List.mem_append_right _ (by simp), by simp⟩

theorem keyPinned_upsert_other (k : BKey) (v : Agg) (kv : BKey × Agg)
    (hne : kv.1 ≠ k) (t : Table) (h : KeyPinned k v t) :
    KeyPinned k v (upsertBucket kv t) := by
  obtain ⟨hall, hany⟩ := h
  unfold upsertBucket
  by_cases ha : t.any (fun kv0 => kv0.1 = kv.1) = true
  · rw [if_pos ha]
    constructor
    · intro x hx hxk
      rcases List.mem_map.mp hx with ⟨x0, hx0, rfl⟩
      by_cases h0 : x0.1 = kv.1
      · rw [if_pos h0] at hxk ⊢
        exact absurd hxk hne
      · rw [if_neg h0] at hxk ⊢
        exact hall x0 hx0 hxk
    · rcases List.any_eq_true.mp hany with ⟨x0, hx0, hxk⟩
      have hx0k : x0.1 = k := of_decide_eq_true hxk
      have h0 : ¬ x0.1 = kv.1 := fun hc => hne (hc ▸ hx0k.symm).symm
      refine List.any_eq_true.mpr ⟨x0, ?_, hxk⟩
      refine List.mem_map.mpr ⟨x0, hx0, ?_⟩
      rw [if_neg h0]
  · rw [if_neg ha]
    constructor
    · intro x hx hxk
      rcases List.mem_append.mp hx with hxt | hxe
      · exact hall x hxt hxk
      · rw [List.mem_singleton.mp hxe] at hxk
        exact absurd hxk hne
    · rcases List.any_eq_true.mp hany with ⟨x0, hx0, hxk⟩
      exact List.any_eq_true.mpr ⟨x0, List.mem_append_left _ hx0, hxk⟩

theorem keyPinned_upsertAll (aggs : List (BKey × Agg)) (k : BKey) (v : Agg)
    (hk : ∀ kv ∈ aggs, kv.1 ≠ k) :
    ∀ t : Table, KeyPinned k v t → KeyPinned k v (upsertAll aggs t) := by
  induction aggs with
  | nil => exact fun t h => h
  | cons a A ih =>
    intro t h
    show KeyPinned k v (upsertAll A (upsertBucket a t))
    exact ih (fun kv hkv => hk kv (List.mem_cons_of_mem a hkv)) _
      (keyPinned_upsert_other k v a (hk a (List.mem_cons_self a A)) t h)

theorem map_replace_eq_self (k : BKey) (v : Agg) (t : Table)
    (h : ∀ kv ∈ t, kv.1 = k → kv = (k, v)) :
    t.map (fun kv0 => if kv0.1 = k then (k, v) else kv0) = t := by
  induction t with
  | nil => rfl
  | cons a t ih =>
    rw [List.map_cons, ih (fun kv hkv => h kv (List.mem_cons_of_mem a hkv))]
    by_cases ha : a.1 = k
    · rw [if_pos ha, h a (List.mem_cons_self a t) ha]
    · rw [if_neg ha]

theorem upsert_of_keyPinned (k : BKey) (v : Agg) (t : Table)
    (h : KeyPinned k v t) : upsertBucket (k, v) t = t := by
  unfold upsertBucket
  rw [if_pos h.2]
  exact map_replace_eq_self k v t h.1

theorem upsertAll_idem (aggs : List (BKey × Agg))
    (hnd : (aggs.map Prod.fst).Nodup) :
    ∀ t : Table, upsertAll aggs (upsertAll aggs t) = upsertAll aggs t := by
  induction aggs with
  | nil => exact fun _ => rfl
  | cons a A ih =>
    rw [List.map_cons, List.nodup_cons] at hnd
    obtain ⟨hka, hnd'⟩ := hnd
    intro t
    show upsertAll A (upsertBucket a (upsertAll A (upsertBucket a t)))
        = upsertAll A (upsertBucket a t)
    have hp : KeyPinned a.1 a.2 (upsertAll A (upsertBucket a t)) := by
      refine keyPinned_upsertAll A a.1 a.2 ?_ _ (keyPinned_upsert_self a t)
      intro kv hkv hc
      exact hka (hc ▸ List.mem_map_of_mem Prod.fst hkv)
    rw [show upsertBucket a = upsertBucket (a.1, a.2) from rfl,
      upsert_of_keyPinned a.1 a.2 _ hp]
    exact ih hnd' (upsertBucket a t)

theorem filter_map_replace_nil (k : BKey) (kv : BKey × Agg) (t : Table)
    (hk : ∀ x ∈ t, x.1 ≠ k) :
    (t.map (fun kv0 => if kv0.1 = kv.1 then kv else kv0)).filter
      (fun x => x.1 = k) = [] := by
  rw [List.filter_eq_nil_iff]
  intro x hx
  rcases List.mem_map.mp hx with ⟨x0, hx0, rfl⟩
  by_cases h0 : x0.1 = kv.1
  · rw [if_pos h0]
    by_cases hkvk : kv.1 = k
    · exact absurd (hkvk ▸ h0) (hk x0 hx0)
    · simpa using hkvk
  · rw [if_neg h0]
    simpa using hk x0 hx0

theorem nodupKeys_upsert (kv : BKey × Agg) (t : Table)
    (h : (t.map Prod.fst).Nodup) :
    ((upsertBucket kv t).map Prod.fst).Nodup := by
  unfold upsertBucket
  by_cases ha : t.any (fun kv0 => kv0.1 = kv.1) = true
  · rw [if_pos ha]
    have hkeys : (t.map (fun kv0 => if kv0.1 = kv.1 then kv else kv0)).map Prod.fst
        = t.map Prod.fst := by
      rw [List.map_map]
      apply List.map_congr_left
      intro x _
      by_cases h0 : x.1 = kv.1
      · simp [h0]
      · simp [h0]
    rw [hkeys]
    exact h
  · rw [if_neg ha]
    rw [List.map_append]
    refine List.Nodup.append h (by simp) ?_
    intro x hx hy
    rcases List.mem_map.mp hx with ⟨x0, hx0, rfl⟩
    have hx' : x0.1 = kv.1 := by simpa using hy
    exact ha (List.any_eq_true.mpr ⟨x0, hx0, decide_eq_true hx'⟩)

theorem filter_upsert_self (kv : BKey × Agg) (t : Table)
    (h : (t.map Prod.fst).Nodup) :
    (upsertBucket kv t).filter (fun x => x.1 = kv.1) = [kv] := by
  unfold upsertBucket
  by_cases ha : t.any (fun kv0 => kv0.1 = kv.1) = true
  · rw [if_pos ha]
    induction t with
    | nil => cases ha
    | cons a t ih =>
      rw [List.map_cons, List.nodup_cons] at h
      obtain ⟨hka, hnd⟩ := h
      by_cases h0 : a.1 = kv.1
      · rw [List.map_cons, if_pos h0]
        rw [List.filter_cons_of_pos (by simp)]
        have : (t.map (fun kv0 => if kv0.1 = kv.1 then kv else kv0)).filter
            (fun x => x.1 = kv.1) = [] := by
          refine filter_map_replace_nil kv.1 kv t ?_
          intro x hx hc
          exact hka (h0 ▸ hc ▸ List.mem_map_of_mem Prod.fst hx)
        rw [this]
      · have ha' : t.any (fun kv0 => kv0.1 = kv.1) = true := by
          rcases List.any_eq_true.mp ha with ⟨x0, hx0, hxk⟩
          rcases List.mem_cons.mp hx0 with rfl | hxm
          · exact absurd (of_decide_eq_true hxk) h0
          · exact List.any_eq_true.mpr ⟨x0, hxm, hxk⟩
        rw [List.map_cons, if_neg h0]
        rw [List.filter_cons_of_neg (by simpa using h0)]
        exact ih hnd ha'
  · rw [if_neg ha]
    rw [List.filter_append]
    have h1 : t.filter (fun x => x.1 = kv.1) = [] := by
      rw [List.filter_eq_nil_iff]
      intro x hx hc
      exact ha (List.any_eq_true.mpr ⟨x, hx, decide_eq_true (of_decide_eq_true hc)⟩)
    rw [h1]
    simp

theorem filter_map_replace_other (k : BKey) (kv : BKey × Agg) (hne : kv.1 ≠ k)
    (t : Table) :
    (t.map (fun kv0 => if kv0.1 = kv.1 then kv else kv0)).filter
      (fun x => x.1 = k) = t.filter (fun x => x.1 = k) := by
  induction t with
  | nil => rfl
  | cons a t ih =>
    rw [List.map_cons]
    by_cases h0 : a.1 = kv.1
    · rw [if_pos h0]
      have hak : ¬ a.1 = k := fun hc => hne (h0 ▸ hc)
      rw [List.filter_cons_of_neg (by simpa using hne),
        List.filter_cons_of_neg (by simpa using hak)]
      exact ih
    · rw [if_neg h0]
      by_cases hak : a.1 = k
      · rw [List.filter_cons_of_pos (by simpa using hak),
          List.filter_cons_of_pos (by simpa using hak), ih]
      · rw [List.filter_cons_of_neg (by simpa using hak),
          List.filter_cons_of_neg (by simpa using hak)]
        exact ih

theorem filter_upsert_other (k : BKey) (kv : BKey × Agg) (hne : kv.1 ≠ k)
    (t : Table) :
    (upsertBucket kv t).filter (fun x => x.1 = k)
      = t.filter (fun x => x.1 = k) := by
  unfold upsertBucket
  by_cases ha : t.any (fun kv0 => kv0.1 = kv.1) = true
  · rw [if_pos ha]
    exact filter_map_replace_other k kv hne t
  · rw [if_neg ha]
    rw [List.filter_append]
    have h1 : [kv].filter (fun x => x.1 = k) = [] := by
      rw [List.filter_eq_nil_iff]
      intro x hx
      rw [List.mem_singleton.mp hx]
      simpa using hne
    rw [h1, List.append_nil]

theorem filter_upsertAll_other (A : List (BKey × Agg)) (k : BKey)
    (h : ∀ kv ∈ A, kv.1 ≠ k) :
    ∀ t : Table, (upsertAll A t).filter (fun x => x.1 = k)
      = t.filter (fun x => x.1 = k) := by
  induction A with
  | nil => exact fun _ => rfl
  | cons a A ih =>
    intro t
    show (upsertAll A (upsertBucket a t)).filter _ = _
    rw [ih (fun kv hkv => h kv (List.mem_cons_of_mem a hkv)) (upsertBucket a t)]
    exact filter_upsert_other k a (h a (List.mem_cons_self a A)) t

theorem filter_upsertAll_mem (A : List (BKey × Agg)) (k : BKey) (v : Agg) :
    ∀ t : Table, (t.map Prod.fst).Nodup → (A.map Prod.fst).Nodup →
      (k, v) ∈ A →
      (upsertAll A t).filter (fun x => x.1 = k) = [(k, v)] := by
  induction A with
  | nil =>
    intro t _ _ hmem
    cases hmem
  | cons a A ih =>
    intro t hT hA hmem
    rw [List.map_cons, List.nodup_cons] at hA
    obtain ⟨hka, hA'⟩ := hA
    rcases List.mem_cons.mp hmem with heq | hmemA
    · have hkA : ∀ kv ∈ A, kv.1 ≠ k := by
        intro kv hkv hc
        apply hka
        have h1 : kv.1 ∈ A.map Prod.fst := List.mem_map_of_mem Prod.fst hkv
        rw [hc] at h1
        rw [← heq]
        exact h1
      show (upsertAll A (upsertBucket a t)).filter _ = _
      rw [filter_upsertAll_other A k hkA (upsertBucket a t), ← heq]
      exact filter_upsert_self (k, v) t hT
    · have hak : a.1 ≠ k := by
        intro hc
        exact hka (hc ▸ List.mem_map_of_mem Prod.fst hmemA)
      show (upsertAll A (upsertBucket a t)).filter _ = _
      exact ih (upsertBucket a t) (nodupKeys_upsert a t hT) hA' hmemA

theorem keys_computedAggs (now lower cutoff : Nat) (rows : List RRead) :
    (computedAggs now lower cutoff rows).map Prod.fst
      = groupKeys lower cutoff rows := by
  unfold computedAggs
  rw [List.map_map]
  exact List.map_id _

theorem nodup_keys_computedAggs (now lower cutoff : Nat) (rows : List RRead) :
    ((computedAggs now lower cutoff rows).map Prod.fst).Nodup := by
  rw [keys_computedAggs]
  exact List.nodup_dedup _

end RollupLemmas

/-- C3: running the rollup over an unchanged set of Readings with the same
wall clock and window is idempotent — the bucket table after the second run
equals the table after the first, every bucket being a pure function of the
readings in its window — and for any (probe, bucket) key with at least one
Reading in the backfill window (in particular a key whose bucket already
has a row from an earlier run and which a late Reading just joined), the
resulting table holds exactly one row for that key, carrying the aggregate
recomputed from the current Readings: the late arrival updates the
existing row instead of duplicating it. -/
theorem C3_rollup_idempotent_and_backfill :
    (∀ (now bf : Nat) (rows : List Rollup.RRead) (t : Rollup.Table),
      Rollup.run_once now bf rows (Rollup.run_once now bf rows t)
        = Rollup.run_once now bf rows t) ∧
    (∀ (now bf : Nat) (rows : List Rollup.RRead) (t : Rollup.Table)
       (k : Rollup.BKey),
      (t.map Prod.fst).Nodup →
      k ∈ Rollup.groupKeys (Rollup.floor5 now - bf * 60) (Rollup.floor5 now) rows →
      (Rollup.run_once now bf rows t).filter (fun kv => kv.1 = k)
        = [(k, Rollup.aggFor now
            (Rollup.groupRows (Rollup.floor5 now - bf * 60) (Rollup.floor5 now)
              rows k))]) := by
  constructor
  · intro now bf rows t
    exact upsertAll_idem _
      (nodup_keys_computedAggs now (Rollup.floor5 now - bf * 60)
        (Rollup.floor5 now) rows) t
  · intro now bf rows t k hT hk
    refine filter_upsertAll_mem _ k _ t hT
      (nodup_keys_computedAggs now (Rollup.floor5 now - bf * 60)
        (Rollup.floor5 now) rows) ?_
    exact List.mem_map_of_mem
      (fun k0 => (k0, Rollup.aggFor now
        (Rollup.groupRows (Rollup.floor5 now - bf * 60) (Rollup.floor5 now)
          rows k0))) hk

/-- C3 witness: the theorem applied concretely: one reading at second 850
(bucket start 600) inside the 1-minute backfill window below the cutoff 900
produces, from an empty bucket table, exactly one bucket row carrying the
aggregate of its group. -/
theorem C3_witness :
    (Rollup.run_once 1000 1
      [{ plant_id := 1, ts := 850, lux := some 1, rh := none, temp := none,
         moisture_pct := some 50, moisture_raw := some 320, err := some "" }]
      []).filter (fun kv => kv.1 = (1, 600))
      = [((1, 600), Rollup.aggFor 1000
          (Rollup.groupRows (Rollup.floor5 1000 - 1 * 60) (Rollup.floor5 1000)
            [{ plant_id := 1, ts := 850, lux := some 1, rh := none, temp := none,
               moisture_pct := some 50, moisture_raw := some 320, err := some "" }]
            (1, 600)))] :=
  C3_rollup_idempotent_and_backfill.2 1000 1
    [{ plant_id := 1, ts := 850, lux := some 1, rh := none, temp := none,
       moisture_pct := some 50, moisture_raw := some 320, err := some "" }]
    [] (1, 600) (by simp) (by decide)

end PlantPipe

